import Mathlib

/-!
Verification development for the LicenGuard backend
(`backend/app/services/file_analyzer.py`, `backend/app/services/repo_scanner.py`,
`backend/app/services/mcp_client.py`, `backend/app/views/library_view.py`).

The Python code is shallowly embedded: pure functions become Lean functions,
Python exceptions become `Except`, JSON values become an inductive `JValue`,
XML element trees become an inductive `XElem`, and the outcomes of external
collaborators (the network, the document store, the discovery service) are
passed in as explicit parameters.  Python truthiness (`or`, `if x:`) is
modelled explicitly where the code relies on it.
-/

namespace LicenGuard

/-! ### String primitives

Python string operations are modelled on `List Char`.  `prefB` models
`str.startswith` at a position, `substrL`/`substrS` model the `in` operator
(`needle in haystack`), `lowerS` models `str.lower` (the code only relies on
ASCII case folding), `endsW` models `str.endswith`. -/

def prefB : List Char → List Char → Bool
  | [], _ => true
  | _ :: _, [] => false
  | a :: s, b :: t => a == b && prefB s t

def substrL (needle : List Char) : List Char → Bool
  | [] => prefB needle []
  | c :: t => prefB needle (c :: t) || substrL needle t

def substrS (needle hay : String) : Bool := substrL needle.data hay.data

def lowerS (s : String) : String := ⟨s.data.map Char.toLower⟩

def startsW (s p : String) : Bool := prefB p.data s.data

def endsW (s suffix : String) : Bool := prefB suffix.data.reverse s.data.reverse

/-- Models Python `s[:n]` (slicing by code points). -/
def takeS (s : String) (n : Nat) : String := ⟨s.data.take n⟩

/-- Models Python `str.strip()` (whitespace trim at both ends). -/
def stripS (s : String) : String :=
  ⟨(s.data.dropWhile Char.isWhitespace).reverse.dropWhile Char.isWhitespace |>.reverse⟩

/-- Models Python `s.split(sep, 1)` for a one-character separator:
returns the text before the first occurrence and the text after it. -/
def splitOnceL (sep : List Char) : List Char → (List Char × List Char)
  | [] => ([], [])
  | c :: t =>
    if prefB sep (c :: t) then ([], (c :: t).drop sep.length)
    else
      let (a, b) := splitOnceL sep t
      (c :: a, b)

/-- Python truthiness of an optional string (`None` and `""` are falsy). -/
def strTruthy : Option String → Bool
  | none => false
  | some s => s ≠ ""

/-- Models Python `a or b` for optional strings. -/
def pyOrStr (a b : Option String) : Option String := if strTruthy a then a else b

/-! ### JSON values (`json.loads` results) -/

inductive JValue where
  | jnull
  | jbool (b : Bool)
  | jnum (n : Int)
  | jstr (s : String)
  | jarr (xs : List JValue)
  | jobj (fields : List (String × JValue))

/-- Python truthiness of a JSON value. -/
def jTruthy : JValue → Bool
  | .jnull => false
  | .jbool b => b
  | .jnum n => n ≠ 0
  | .jstr s => s ≠ ""
  | .jarr xs => !xs.isEmpty
  | .jobj fields => !fields.isEmpty

/-- Models `dict.get` on a parsed JSON object: `None` (here `jnull`) when
the key is absent.  Only valid on objects; callers model the `AttributeError`
raised on other shapes separately. -/
def jFieldsGet (fields : List (String × JValue)) (key : String) : JValue :=
  match fields.lookup key with
  | some v => v
  | none => .jnull

/-- `dict.get(key)` viewed as an optional value: a missing key and an explicit
JSON `null` both give Python `None`. -/
def jFieldsGetOpt (fields : List (String × JValue)) (key : String) : Option JValue :=
  match fields.lookup key with
  | some .jnull => none
  | some v => some v
  | none => none

/-- Python exceptions that escape the embedded fragments. -/
inductive PyErr where
  | attributeError
deriving DecidableEq

/-! ### XML element trees (`xml.etree.ElementTree`)

An `XElem` is a parsed element: tag (possibly namespace-qualified as
`{uri}local`), attributes, child elements, and text. -/

structure XElem where
  tag : String
  attrs : List (String × String)
  children : List XElem
  text : Option String
deriving Inhabited

/-- Models `Element.get(name)`. -/
def XElem.attr (e : XElem) (name : String) : Option String := e.attrs.lookup name

/-- Models `local_name` from the source: the part of the tag after the last
closing brace of a namespace qualifier, i.e. the last piece of the tag split
at closing braces. -/
def localName (tag : String) : String :=
  ⟨(tag.data.reverse.takeWhile (fun c => c ≠ '}')).reverse⟩

mutual

/-- Models `Element.iter()`: the element followed by all descendants in
document order. -/
def XElem.allElems : XElem → List XElem
  | ⟨tag, attrs, children, text⟩ => ⟨tag, attrs, children, text⟩ :: allElemsList children

def allElemsList : List XElem → List XElem
  | [] => []
  | e :: es => e.allElems ++ allElemsList es

end

/-! ### `file_analyzer.py` -/

/-- A parsed dependency entry.  `version` keeps the raw JSON value the parser
produced (the npm parser stores whatever JSON value the manifest held);
the Maven parser additionally records `groupId`/`artifactId`. -/
structure Dep where
  name : String
  version : JValue
  groupId : Option String := none
  artifactId : Option String := none
  full_name : Option String := none
  version_source : Option String := none

/-- Embeds `detect_package_manager(filename, content)`. -/
def detect_package_manager (filename content : String) : String :=
  let lowered := lowerS filename
  let snippet := lowerS (takeS content 200)
  if substrS "package.json" lowered || substrS "\"dependencies\"" snippet then "npm"
  else if endsW lowered "requirements.txt" || substrS "pip" snippet then "pypi"
  else if endsW lowered "pom.xml" then "maven"
  else if substrS "packages.config" lowered || substrS "nuget" snippet then "nuget"
  else if endsW lowered ".csproj" || substrS "nuget" snippet then "nuget"
  else "unknown"

/-- One section of `parse_package_json`: the items of the section value,
an empty dict substituted when that value is falsy.  `data.get` raises
`AttributeError` unless `data` is a dict, and `.items` raises
`AttributeError` unless the (truthy) section value is a dict. -/
def packageJsonSection (data : JValue) (sect : String) :
    Except PyErr (List (String × JValue)) :=
  match data with
  | .jobj fields =>
    let v := jFieldsGet fields sect
    let v' := if jTruthy v then v else .jobj []
    match v' with
    | .jobj items => .ok items
    | _ => .error .attributeError
  | _ => .error .attributeError

/-- Embeds `parse_package_json(text)`.  The argument is the outcome of
`json.loads(text)`: `.error` models a `json.JSONDecodeError` (caught, giving
`[]`), `.ok data` the parsed value.  Any `AttributeError` raised while
walking the sections escapes, as in the source. -/
def parse_package_json (parsed : Except Unit JValue) : Except PyErr (List Dep) :=
  match parsed with
  | .error _ => .ok []
  | .ok data => do
    let a ← packageJsonSection data "dependencies"
    let b ← packageJsonSection data "devDependencies"
    let c ← packageJsonSection data "peerDependencies"
    .ok ((a ++ b ++ c).map (fun p => { name := p.1, version := p.2 }))

/-- The `Version` child-element fallback in `parse_csproj_file`: the first
child whose local tag is `Version` and whose stripped text is truthy. -/
def csprojChildVersion (children : List XElem) : Option String :=
  match children with
  | [] => none
  | c :: rest =>
    if localName c.tag = "Version" ∧ stripS (c.text.getD "") ≠ "" then
      some (stripS (c.text.getD ""))
    else csprojChildVersion rest

/-- Embeds `parse_csproj_file(content)`.  The argument is the outcome of
`ET.fromstring(content)`; a parse error yields `[]`. -/
def parse_csproj_file (parsed : Except Unit XElem) : List Dep :=
  match parsed with
  | .error _ => []
  | .ok root =>
    (root.allElems.filter (fun e => localName e.tag = "PackageReference")).filterMap
      (fun e =>
        let name := pyOrStr (e.attr "Include") (e.attr "Update")
        let version :=
          match e.attr "Version" with
          | some v => some v
          | none => csprojChildVersion e.children
        if strTruthy name then
          some { name := name.getD "", version := match version with | some v => .jstr v | none => .jnull }
        else none)

/-- The per-`<dependency>` child scan of `parse_maven_pom`: later children
with the same tag overwrite earlier ones, as in the Python loop. -/
def mavenScanChildren (children : List XElem) :
    Option String × Option String × Option String × Option String :=
  children.foldl
    (fun acc child =>
      let (g, a, v, s) := acc
      let t := stripS (child.text.getD "")
      match localName child.tag with
      | "groupId" => (some t, a, v, s)
      | "artifactId" => (g, some t, v, s)
      | "version" => (g, a, some t, s)
      | "scope" => (g, a, v, some t)
      | _ => (g, a, v, s))
    (none, none, none, none)

/-- Embeds `parse_maven_pom(text)`; the argument is the `ET.fromstring`
outcome. -/
def parse_maven_pom (parsed : Except Unit XElem) : List Dep :=
  match parsed with
  | .error _ => []
  | .ok root =>
    (root.allElems.filter (fun e => localName e.tag = "dependency")).filterMap
      (fun e =>
        let (g, a, v, s) := mavenScanChildren e.children
        if s = some "test" then none
        else if strTruthy g ∧ strTruthy a then
          some { name := g.getD "" ++ ":" ++ a.getD "",
                 version := match v with | some t => .jstr t | none => .jnull,
                 groupId := g, artifactId := a }
        else none)

/-- The pip-style line parsing shared by `parse_requirements` and the
`parse_packages_config` fallback. -/
def pipStyleLines (text : String) : List Dep :=
  (text.splitOn "\n").filterMap (fun raw =>
    let line := stripS raw
    if line = "" ∨ startsW line "#" then none
    else if substrS "==" line then
      let (n, v) := splitOnceL "==".data line.data
      some { name := stripS ⟨n⟩, version := .jstr (stripS ⟨v⟩) }
    else some { name := line, version := .jnull })

/-- Embeds `parse_packages_config(text)`: on XML success collect
`<package id=.. version=..>` descendants, on `ET.ParseError` fall back to
pip-style lines. -/
def parse_packages_config (text : String) (parsed : Except Unit XElem) : List Dep :=
  match parsed with
  | .ok root =>
    ((allElemsList root.children).filter (fun e => e.tag = "package")).filterMap
      (fun pkg =>
        let name := pyOrStr (pkg.attr "id") (pyOrStr (pkg.attr "Id") (pkg.attr "name"))
        let version := pyOrStr (pkg.attr "version") (pkg.attr "Version")
        if strTruthy name then
          some { name := name.getD "",
                 version := match version with | some v => .jstr v | none => .jnull }
        else none)
  | .error _ => pipStyleLines text

/-- Embeds `parse_requirements(text, filename)`.  `xmlParsed` is the
`ET.fromstring` outcome of the (stripped) content, consulted only on the
`.csproj` and `packages.config` branches. -/
def parse_requirements (text : String) (filename : String := "")
    (xmlParsed : Except Unit XElem := .error ()) : List Dep :=
  if filename ≠ "" ∧ endsW (lowerS filename) ".csproj" then
    parse_csproj_file xmlParsed
  else if filename ≠ "" ∧ substrS "packages.config" (lowerS filename) then
    parse_packages_config text xmlParsed
  else pipStyleLines text

/-- Embeds `enrich_dependencies_with_latest_versions(dependencies, ecosystem)`.
The read-only registry lookups are abstracted as `latestSimple eco name`
(npm / pypi / nuget / go) and `latestMaven groupId artifactId`; a `none`
models any swallowed network or format error. -/
def enrich_dependencies_with_latest_versions
    (latestSimple : String → String → Option String)
    (latestMaven : String → String → Option String)
    (dependencies : List Dep) (ecosystem : String) : List Dep :=
  dependencies.map (fun dep =>
    if jTruthy dep.version then dep
    else
      let name := dep.name
      let lookup : Option (String × String) :=
        if ecosystem = "npm" ∧ name ≠ "" then
          (latestSimple "npm" name).map (fun v => (v, "latest_from_npm"))
        else if ecosystem = "pypi" ∧ name ≠ "" then
          (latestSimple "pypi" name).map (fun v => (v, "latest_from_pypi"))
        else if ecosystem = "maven" ∧ name ≠ "" then
          if substrS ":" name then
            let (g, a) := splitOnceL ":".data name.data
            (latestMaven ⟨g⟩ ⟨a⟩).map (fun v => (v, "latest_from_maven"))
          else if strTruthy dep.groupId ∧ strTruthy dep.artifactId then
            (latestMaven (dep.groupId.getD "") (dep.artifactId.getD "")).map
              (fun v => (v, "latest_from_maven"))
          else none
        else if ecosystem = "nuget" ∧ name ≠ "" then
          (latestSimple "nuget" name).map (fun v => (v, "latest_from_nuget"))
        else if ecosystem = "go" ∧ name ≠ "" then
          (latestSimple "go" ((pyOrStr dep.full_name (some name)).getD name)).map
            (fun v => (v, "latest_from_goproxy"))
        else none
      match lookup with
      | some (v, src) => { dep with version := .jstr v, version_source := some src }
      | none => dep)

/-- The report returned by `analyze_file`. -/
structure AnalyzeReport where
  packageManager : String
  dependencies : List Dep
  ecosystem : String

/-- Embeds `analyze_file(filename, content)`.  `jsonParsed` models the
outcome of `json.loads(content)` and `xmlParsed` the outcome of
`ET.fromstring(content)`, consumed by whichever parser the detected package
manager dispatches to.  An `AttributeError` escaping `parse_package_json`
escapes `analyze_file` as well. -/
def analyze_file (filename content : String)
    (jsonParsed : Except Unit JValue) (xmlParsed : Except Unit XElem)
    (latestSimple latestMaven : String → String → Option String) :
    Except PyErr AnalyzeReport :=
  let manager := detect_package_manager filename content
  if manager = "npm" then do
    let deps ← parse_package_json jsonParsed
    .ok { packageManager := manager,
          dependencies := enrich_dependencies_with_latest_versions latestSimple latestMaven deps "npm",
          ecosystem := "npm" }
  else if manager = "pypi" then
    .ok { packageManager := manager,
          dependencies := enrich_dependencies_with_latest_versions latestSimple latestMaven
            (parse_requirements content) "pypi",
          ecosystem := "pypi" }
  else if manager = "maven" then
    .ok { packageManager := manager,
          dependencies := enrich_dependencies_with_latest_versions latestSimple latestMaven
            (parse_maven_pom xmlParsed) "maven",
          ecosystem := "maven" }
  else if manager = "nuget" then
    .ok { packageManager := manager,
          dependencies := enrich_dependencies_with_latest_versions latestSimple latestMaven
            (parse_requirements content filename xmlParsed) "nuget",
          ecosystem := "nuget" }
  else
    .ok { packageManager := manager, dependencies := [], ecosystem := "unknown" }

/-! ### `library_view.py`: version normalization and license-risk heuristic -/

/-- Embeds `normalize_version(ver)`: all leading carets stripped, then all
leading letters `v`, then surrounding whitespace (Python `lstrip` strips every
leading occurrence). -/
def normalize_version (ver : Option String) : String :=
  stripS ⟨((ver.getD "").data.dropWhile (fun c => c = '^')).dropWhile (fun c => c = 'v')⟩

/-- One element of a `license_summary` list: either a dict carrying optional
`summary` and `emoji` strings, or any other value, contributing its string
form to the haystack. -/
inductive SummaryItem where
  | dict (summary : Option String) (emoji : Option String)
  | plain (s : String)
deriving DecidableEq

/-- The `text_parts` collected by `compute_risk_from_license`. -/
def summaryTexts (items : List SummaryItem) : List String :=
  items.filterMap (fun item =>
    match item with
    | .dict s _ => if strTruthy s then some (s.getD "") else none
    | .plain t => some t)

/-- The `emoji_parts` collected by `compute_risk_from_license`. -/
def summaryEmojis (items : List SummaryItem) : List String :=
  items.filterMap (fun item =>
    match item with
    | .dict _ e => if strTruthy e then some (e.getD "") else none
    | .plain _ => none)

/-- The lower-cased `haystack` joining the license name and summary texts. -/
def riskHaystack (license_name : Option String)
    (license_summary : Option (List SummaryItem)) : String :=
  lowerS (String.intercalate " "
    ((license_name.getD "") :: summaryTexts (license_summary.getD [])))

/-- The `has_strong` classification flag (strong-copyleft markers). -/
def hasStrongMarkers (license_name : Option String)
    (license_summary : Option (List SummaryItem)) : Bool :=
  let h := riskHaystack license_name license_summary
  substrS "agpl" h || substrS "gpl" h || substrS "sspl" h || substrS "copyleft" h ||
    (summaryEmojis (license_summary.getD [])).any (fun e => substrS "🔴" e || substrS "🚫" e)

/-- The `has_weak` classification flag (weak-copyleft markers). -/
def hasWeakMarkers (license_name : Option String)
    (license_summary : Option (List SummaryItem)) : Bool :=
  let h := riskHaystack license_name license_summary
  substrS "lgpl" h || substrS "mpl" h || substrS "cddl" h ||
    (summaryEmojis (license_summary.getD [])).any (fun e => substrS "🟠" e || substrS "🟡" e)

/-- The `has_perm` classification flag (permissive markers). -/
def hasPermMarkers (license_name : Option String)
    (license_summary : Option (List SummaryItem)) : Bool :=
  let h := riskHaystack license_name license_summary
  substrS "mit" h || substrS "apache" h || substrS "bsd" h || substrS "isc" h ||
    (summaryEmojis (license_summary.getD [])).any (fun e => substrS "🟢" e || substrS "✅" e)

/-- Python 3 `round` on a rational: round half to even. -/
def pyRound (q : ℚ) : ℤ :=
  let f := ⌊q⌋
  let r := q - (f : ℚ)
  if r < 1/2 then f
  else if 1/2 < r then f + 1
  else if f % 2 = 0 then f else f + 1

/-- The confidence default: the source substitutes 1 for an absent or
non-numeric confidence. -/
def confOrOne : Option ℚ → ℚ
  | some c => c
  | none => 1

/-- The dict returned by `compute_risk_from_license`. -/
structure Risk where
  level : String
  score : ℤ
  explanation : String
deriving DecidableEq

/-- Embeds `compute_risk_from_license(license_name, license_summary,
confidence)`.  A `confidence` of `none` models an absent or non-numeric
value (treated as 1, as in the source's `isinstance` guard). -/
def compute_risk_from_license (license_name : Option String := none)
    (license_summary : Option (List SummaryItem) := none)
    (confidence : Option ℚ := none) : Risk :=
  let has_strong := hasStrongMarkers license_name license_summary
  let has_weak := hasWeakMarkers license_name license_summary
  let has_perm := hasPermMarkers license_name license_summary
  let lb : String × ℚ :=
    if has_strong then ("high", 90)
    else if has_weak then ("medium", 60)
    else if has_perm then ("low", 10)
    else ("unknown", 50)
  let conf : ℚ := confOrOne confidence
  let score : ℤ := min 100 (max 0 (pyRound (lb.2 * conf)))
  let reason : String :=
    if has_strong then "strong copyleft indicators (e.g., GPL/AGPL/SSPL)"
    else if has_weak then "weak/limited copyleft indicators (e.g., LGPL/MPL)"
    else if has_perm then "permissive license indicators (e.g., MIT/Apache/BSD)"
    else "based on detected license hints"
  { level := lb.1, score := score,
    explanation := lb.1 ++ " risk — score " ++ toString score ++ "/100 " ++ reason }

/-! ### `library_view.py`: enriched dependencies and the scan merge loop -/

/-- The enriched dependency dict built by `resolve_dependency_entry` and
merged by `perform_repo_scan`. -/
structure Enriched where
  name : String
  version : Option String
  ecosystem : String
  risk_score : Option ℤ
  risk_level : Option String
  risk_score_explanation : Option String
  license_risk_score : Option ℤ
  security_risk_score : Option ℤ
  maintenance_risk_score : Option ℤ
  usage_context_risk_score : Option ℤ
  sources : List String
  library_id : Option String
  repository_url : Option String
deriving DecidableEq

/-- Lexicographic comparison of strings by code point, as Python `sorted`
orders strings. -/
def strLeB (a b : List Char) : Bool :=
  match a, b with
  | [], _ => true
  | _ :: _, [] => false
  | c :: a', d :: b' => if c = d then strLeB a' b' else decide (c < d)

def insertSortedStr (x : String) : List String → List String
  | [] => [x]
  | y :: ys => if strLeB x.data y.data then x :: y :: ys else y :: insertSortedStr x ys

def sortStrings : List String → List String
  | [] => []
  | x :: xs => insertSortedStr x (sortStrings xs)

/-- Models `sorted(set(a) | set(b))` for string lists. -/
def pySortedSetUnion (a b : List String) : List String := sortStrings ((a ++ b).dedup)

/-- Python truthiness of an optional integer (`None` and `0` are falsy). -/
def intTruthy : Option ℤ → Bool
  | none => false
  | some v => v ≠ 0

/-- Models Python `a or b` for optional integers. -/
def pyOrInt (a b : Option ℤ) : Option ℤ := if intTruthy a then a else b

/-- The deduplication identity used by `perform_repo_scan`:
lower-cased name paired with the lower-cased normalized version. -/
def scanKey (e : Enriched) : String × String :=
  (lowerS e.name, lowerS (normalize_version e.version))

/-- The in-place update `perform_repo_scan` applies to an `existing` record of
the same identity when a further `enriched` record arrives: union the source
sets (sorted), copy `risk_score` and `risk_level` from the new record when the
existing `risk_score` is `None`, fill a falsy explanation, fill `None`
component scores, and fill falsy `library_id`/`repository_url`. -/
def mergeEnriched (existing enriched : Enriched) : Enriched :=
  let fill : Option ℤ → Option ℤ → Option ℤ :=
    fun a b => if a = none ∧ b ≠ none then b else a
  let rs_rl : Option ℤ × Option String :=
    if existing.risk_score = none ∧ enriched.risk_score ≠ none then
      (enriched.risk_score, enriched.risk_level)
    else (existing.risk_score, existing.risk_level)
  { existing with
    sources := pySortedSetUnion existing.sources enriched.sources,
    risk_score := rs_rl.1,
    risk_level := rs_rl.2,
    risk_score_explanation :=
      if strTruthy existing.risk_score_explanation = false ∧
          strTruthy enriched.risk_score_explanation then
        enriched.risk_score_explanation
      else existing.risk_score_explanation,
    license_risk_score := fill existing.license_risk_score enriched.license_risk_score,
    security_risk_score := fill existing.security_risk_score enriched.security_risk_score,
    maintenance_risk_score := fill existing.maintenance_risk_score enriched.maintenance_risk_score,
    usage_context_risk_score :=
      fill existing.usage_context_risk_score enriched.usage_context_risk_score,
    library_id :=
      if strTruthy existing.library_id = false ∧ strTruthy enriched.library_id then
        enriched.library_id
      else existing.library_id,
    repository_url :=
      if strTruthy existing.repository_url = false ∧ strTruthy enriched.repository_url then
        enriched.repository_url
      else existing.repository_url }

/-- One step of the `resolved_index` accumulation of `perform_repo_scan`:
an insertion-ordered association map keyed by `scanKey`, mutated in place on a
key hit and appended to on a miss (Python dict semantics). -/
def insertResolved (idx : List ((String × String) × Enriched)) (e : Enriched) :
    List ((String × String) × Enriched) :=
  if idx.any (fun p => decide (p.1 = scanKey e)) then
    idx.map (fun p => if p.1 = scanKey e then (p.1, mergeEnriched p.2 e) else p)
  else idx ++ [(scanKey e, e)]

/-- The deduplicated `dependencies` list `perform_repo_scan` returns, given
the stream of `resolve_dependency_entry` outputs for every parsed dependency
occurrence of the scan, in scan order (`resolved_index.values()` iterates in
insertion order). -/
def performScanAggregate (events : List Enriched) : List Enriched :=
  (events.foldl insertResolved []).map Prod.snd

/-! ### `library_view.py`: `resolve_dependency_entry`

External collaborators are passed in: `search_res` is the response of
`search_libraries(query)` and `create_lib` models `create_library`
(`.error` models a raised persistence exception). -/

/-- A version entry of a library record (the duck-typed "model or dict"
access paths of the source collapse onto one record type). -/
structure VersionRec where
  version : Option String := none
  license_name : Option String := none
  license_url : Option String := none
  notes : Option String := none
  license_summary : List SummaryItem := []
  evidence : List String := []
  confidence : Option ℚ := none
  risk_level : Option String := none
  risk_score : Option ℤ := none
  risk_score_explanation : Option String := none
  license_risk_score : Option ℤ := none
  security_risk_score : Option ℤ := none
  maintenance_risk_score : Option ℤ := none
  usage_context_risk_score : Option ℤ := none
deriving DecidableEq

structure LibraryCreate where
  name : String
  ecosystem : Option String := none
  description : Option String := none
  repository_url : Option String := none
  officialSite : Option String := none
  versions : List VersionRec := []
deriving DecidableEq

structure LibraryDoc where
  id : Option String := none
  name : String := ""
  ecosystem : Option String := none
  description : Option String := none
  repository_url : Option String := none
  officialSite : Option String := none
  versions : List VersionRec := []
deriving DecidableEq

structure DiscoveryMatch where
  name : Option String := none
  ecosystem : Option String := none
  description : Option String := none
  repository_url : Option String := none
  officialSite : Option String := none
  versions : List VersionRec := []
deriving DecidableEq

/-- A discovery report; `found_matches` models the `matches` field of the
source (`matches` is a reserved word here). -/
structure DiscoveryReport where
  found_matches : List DiscoveryMatch := []
deriving DecidableEq

structure SearchResponse where
  source : String
  results : List LibraryDoc := []
  discovery : Option DiscoveryReport := none
deriving DecidableEq

/-- The incoming dependency dict handed to `resolve_dependency_entry` (fields
read with `dep.get`, so every field is optional). -/
structure DepDict where
  name : Option String := none
  version : Option String := none
  ecosystem : Option String := none
  risk_score : Option ℤ := none
  risk_level : Option String := none
  risk_score_explanation : Option String := none
  license_risk_score : Option ℤ := none
  security_risk_score : Option ℤ := none
  maintenance_risk_score : Option ℤ := none
  usage_context_risk_score : Option ℤ := none
deriving DecidableEq

/-- The `ecosystem`/`packageManager` keys of the surrounding analyze report. -/
structure ReportCtx where
  ecosystem : Option String := none
  packageManager : Option String := none
deriving DecidableEq

/-- The ecosystem fallback chain of `resolve_dependency_entry`. -/
def resolveEcosystem (dep : DepDict) (report : ReportCtx) : String :=
  let c := pyOrStr dep.ecosystem (pyOrStr report.ecosystem report.packageManager)
  if strTruthy c then c.getD "" else "unknown"

/-- Embeds `pick_version_match(versions, target)`. -/
def pick_version_match (versions : List VersionRec) (target : String) :
    Option VersionRec :=
  match versions with
  | [] => none
  | v0 :: _ =>
    if target ≠ "" then
      match versions.find?
          (fun v => decide (lowerS (normalize_version v.version) = lowerS target)) with
      | some v => some v
      | none => some v0
    else some v0

/-- The `LibraryCreate` payload persisting an MCP search hit. -/
def libCreateOfDoc (md : LibraryDoc) (ecosystem : String) : LibraryCreate :=
  { name := md.name, ecosystem := pyOrStr md.ecosystem (some ecosystem),
    description := md.description, repository_url := md.repository_url,
    officialSite := md.officialSite, versions := md.versions }

/-- The `LibraryCreate` payload built from the first discovery match. -/
def discoveryPayload (best : DiscoveryMatch) (name ecosystem version_norm : String) :
    LibraryCreate :=
  let version_model := best.versions.head?
  let base :=
    match best.versions.head? with
    | some vm => normalize_version vm.version
    | none => normalize_version (some version_norm)
  let target_version :=
    if base ≠ "" then base else if version_norm ≠ "" then version_norm else "unknown"
  let risk := compute_risk_from_license (version_model.bind (·.license_name))
    (version_model.map (·.license_summary)) (version_model.bind (·.confidence))
  { name := if strTruthy best.name then best.name.getD "" else name,
    ecosystem := pyOrStr best.ecosystem (some ecosystem),
    description := best.description,
    repository_url := pyOrStr best.repository_url best.officialSite,
    officialSite := pyOrStr best.officialSite best.repository_url,
    versions := [
      { version := some target_version,
        license_name := version_model.bind (·.license_name),
        license_url := version_model.bind (·.license_url),
        notes := version_model.bind (·.notes),
        license_summary := (version_model.map (·.license_summary)).getD [],
        evidence := (version_model.map (·.evidence)).getD [],
        confidence := version_model.bind (·.confidence),
        risk_level := pyOrStr (version_model.bind (·.risk_level)) (some risk.level),
        risk_score := pyOrInt (version_model.bind (·.risk_score)) (some risk.score),
        risk_score_explanation :=
          pyOrStr (version_model.bind (·.risk_score_explanation)) (some risk.explanation),
        license_risk_score := version_model.bind (·.license_risk_score),
        security_risk_score := version_model.bind (·.security_risk_score),
        maintenance_risk_score := version_model.bind (·.maintenance_risk_score),
        usage_context_risk_score := version_model.bind (·.usage_context_risk_score) } ] }

/-- The in-memory `LibraryDocument` fallback built when persisting a
discovery payload fails. -/
def docOfPayload (p : LibraryCreate) : LibraryDoc :=
  { id := none, name := p.name, ecosystem := p.ecosystem, description := p.description,
    repository_url := p.repository_url, officialSite := p.officialSite,
    versions := p.versions }

/-- The value `resolve_dependency_entry` returns: the early no-name return
keeps the incoming dict shape, the normal path builds a full enriched dict. -/
inductive ResolveOut where
  | early (dep : DepDict) (sources : List String)
  | full (e : Enriched)
deriving DecidableEq

/-- Embeds `resolve_dependency_entry(dep, relpath, report)`. -/
def resolve_dependency_entry (dep : DepDict) (relpath : String) (report : ReportCtx)
    (search_res : SearchResponse)
    (create_lib : LibraryCreate → Except Unit LibraryDoc) : ResolveOut :=
  if ¬ strTruthy dep.name then .early dep [relpath]
  else
    let name := dep.name.getD ""
    let version_raw := dep.version
    let version_norm := normalize_version version_raw
    let ecosystem := resolveEcosystem dep report
    let match_doc : Option LibraryDoc :=
      match search_res.results with
      | md :: _ =>
        if search_res.source = "mcp" then
          match create_lib (libCreateOfDoc md ecosystem) with
          | .ok d => some d
          | .error _ => some md
        else some md
      | [] =>
        match search_res.discovery with
        | some disc =>
          match disc.found_matches with
          | best :: _ =>
            let payload := discoveryPayload best name ecosystem version_norm
            match create_lib payload with
            | .ok d => some d
            | .error _ => some (docOfPayload payload)
          | [] => none
        | none => none
    let rs0 := dep.risk_score
    let rl0 := dep.risk_level
    let re0 := dep.risk_score_explanation
    let comp0 := (dep.license_risk_score, dep.security_risk_score,
      dep.maintenance_risk_score, dep.usage_context_risk_score)
    match match_doc with
    | none =>
      .full { name := name, version := version_raw, ecosystem := ecosystem,
              risk_score := rs0, risk_level := rl0, risk_score_explanation := re0,
              license_risk_score := comp0.1, security_risk_score := comp0.2.1,
              maintenance_risk_score := comp0.2.2.1,
              usage_context_risk_score := comp0.2.2.2,
              sources := [relpath], library_id := none, repository_url := none }
    | some md =>
      let library_id : Option String :=
        match md.id with
        | some s => if s = "" then none else some s
        | none => none
      let repository_url := md.repository_url
      match pick_version_match md.versions version_norm with
      | none =>
        .full { name := name, version := version_raw, ecosystem := ecosystem,
                risk_score := rs0, risk_level := rl0, risk_score_explanation := re0,
                license_risk_score := comp0.1, security_risk_score := comp0.2.1,
                maintenance_risk_score := comp0.2.2.1,
                usage_context_risk_score := comp0.2.2.2,
                sources := [relpath], library_id := library_id,
                repository_url := repository_url }
      | some vm =>
        let rs1 := pyOrInt rs0 vm.risk_score
        let rl1 := pyOrStr rl0 vm.risk_level
        let re1 := pyOrStr re0 vm.risk_score_explanation
        let l1 := pyOrInt comp0.1 vm.license_risk_score
        let s1 := pyOrInt comp0.2.1 vm.security_risk_score
        let m1 := pyOrInt comp0.2.2.1 vm.maintenance_risk_score
        let u1 := pyOrInt comp0.2.2.2 vm.usage_context_risk_score
        let rse : Option ℤ × Option String × Option String :=
          if rs1 = none ∨ rl1 = none then
            let computed := compute_risk_from_license vm.license_name
              (some vm.license_summary) vm.confidence
            (pyOrInt rs1 (some computed.score), pyOrStr rl1 (some computed.level),
             pyOrStr re1 (some computed.explanation))
          else if strTruthy re1 = false ∧
              (strTruthy vm.license_name ∨ vm.license_summary ≠ []) then
            let computed := compute_risk_from_license vm.license_name
              (some vm.license_summary) vm.confidence
            (rs1, rl1, some computed.explanation)
          else (rs1, rl1, re1)
        .full { name := name, version := version_raw, ecosystem := ecosystem,
                risk_score := rse.1, risk_level := rse.2.1,
                risk_score_explanation := rse.2.2,
                license_risk_score := l1, security_risk_score := s1,
                maintenance_risk_score := m1, usage_context_risk_score := u1,
                sources := [relpath], library_id := library_id,
                repository_url := repository_url }

/-! ### `repo_scanner.py`: manifest discovery -/

def DEP_FILES : List String :=
  ["package.json", "yarn.lock", "pnpm-lock.yaml",
   "requirements.txt", "Pipfile", "pyproject.toml",
   "pom.xml", "build.gradle", "build.gradle.kts",
   "packages.config", ".csproj",
   "go.mod", "vendor/modules.txt"]

/-- Embeds `is_dependency_file(filename)`. -/
def is_dependency_file (filename : String) : Bool :=
  let lower := lowerS filename
  if endsW lower ".csproj" then true else decide (lower ∈ DEP_FILES)

def IGNORED_DIRS : List String :=
  ["node_modules", "build", "dist", ".git", ".svn", ".hg", "vendor",
   "__pycache__", ".pytest_cache", ".mypy_cache", ".venv", "venv", "env",
   ".env", "target", "bin", "obj", ".idea", ".vscode", ".vs", "coverage",
   ".coverage", ".nyc_output", ".next", "out", ".cache", "tmp", "temp",
   ".tmp", ".temp"]

/-- The per-component test inside `_should_ignore_path`: an ignored directory
name, or a dot-prefixed component other than the current/parent markers,
unless it ends in `.csproj`. -/
def ignoredPart (part : String) : Bool :=
  decide (part ∈ IGNORED_DIRS) ||
    (startsW part "." && !decide (part = ".") && !decide (part = "..") &&
      !endsW part ".csproj")

/-- Embeds `_should_ignore_path` on the already-split component list.  The
source splits its string argument on path separators first; component names
produced by a filesystem walk contain no separators, so the two presentations
agree. -/
def should_ignore_parts (parts : List String) : Bool := parts.any ignoredPart

/-- A filesystem tree: the entries handed to the walk. -/
inductive FsTree where
  | file (name : String)
  | dir (name : String) (entries : List FsTree)

def fileNamesOf (entries : List FsTree) : List String :=
  entries.filterMap (fun t =>
    match t with
    | .file n => some n
    | .dir _ _ => none)

/-- The `rel_dir` of the directory at component path `pre` relative to the
walk root (`os.path.relpath` answers `.` for the root itself). -/
def relParts (pre : List String) : List String := if pre = [] then ["."] else pre

/-- The manifest paths `find_dependency_files` collects while visiting the
directory at component path `pre` with the given entries: skipped wholesale
when the directory's relative path is ignored, else the dependency-named
files whose relative path survives the `_should_ignore_path` double check. -/
def collectManifests (pre : List String) (entries : List FsTree) :
    List (List String) :=
  if should_ignore_parts (relParts pre) then []
  else
    ((fileNamesOf entries).filter
      (fun n => is_dependency_file n && !should_ignore_parts (pre ++ [n]))).map
      (fun n => pre ++ [n])

mutual

/-- The walk over one entry: files contribute nothing directly (they are
collected by `collectManifests` of the enclosing directory), and a
subdirectory is pruned before descent when its name is in `IGNORED_DIRS` or
dot-prefixed, exactly as the `dirnames` slice assignment prunes `os.walk`. -/
def walkEntry (pre : List String) : FsTree → List (List String)
  | .file _ => []
  | .dir d sub =>
    if decide (d ∈ IGNORED_DIRS) || startsW d "." then []
    else collectManifests (pre ++ [d]) sub ++ walkEntries (pre ++ [d]) sub

def walkEntries (pre : List String) : List FsTree → List (List String)
  | [] => []
  | t :: ts => walkEntry pre t ++ walkEntries pre ts

end

/-- `find_dependency_files` as component paths relative to the root. -/
def find_dependency_parts (root : List FsTree) : List (List String) :=
  collectManifests [] root ++ walkEntries [] root

def joinParts (parts : List String) : String := String.intercalate "/" parts

/-- Embeds `find_dependency_files(root)`, the argument being the root
directory's entries. -/
def find_dependency_files (root : List FsTree) : List String :=
  (find_dependency_parts root).map joinParts

/-! ### `repo_scanner.py`: clone-failure message and credential redaction -/

/-- The fuelled scan underlying `pyReplace`.  Each step consumes at least
one character of the text and one unit of fuel, so fuel equal to the text
length (as the wrapper supplies) never runs out. -/
def pyReplaceGo : Nat → List Char → List Char → List Char → List Char
  | _, [], _, _ => []
  | 0, t, _, _ => t
  | Nat.succ fuel, c :: t', s, r =>
    if s ≠ [] ∧ prefB s (c :: t') = true then
      r ++ pyReplaceGo fuel ((c :: t').drop s.length) s r
    else c :: pyReplaceGo fuel t' s r

/-- Models Python `text.replace(needle, replacement)`: scan left to right,
replacing each non-overlapping occurrence.  (With an empty needle the scan
copies the text unchanged; the source only ever replaces a non-empty secret,
since `_with_host_auth` reports a secret only when one was found truthy.) -/
def pyReplace (t s r : List Char) : List Char := pyReplaceGo t.length t s r

def redactionMarker : String := "***redacted***"

/-- The error message `clone_repository` raises when the HTTPS clone fails
after a credential secret was injected.  A truthy `secret_used` disables
both the extra environment-variable hints and the SSH fallback (the fallback
requires `not secret_used`), so the function raises `RuntimeError` with the
redacted stderr followed by the hint.  `stderrRaw` is the decoded, stripped
stderr of the git subprocess. -/
def clone_error_message (stderrRaw secret : String) (has_ssh : Bool) : String :=
  let stderr : String := ⟨pyReplace stderrRaw.data secret.data redactionMarker.data⟩
  let hint0 := "Check that the repository URL is correct and reachable."
  let hint1 :=
    if substrS "terminal prompts disabled" stderr then
      hint0 ++ " Terminal prompts are disabled. You must provide credentials (env vars) or use SSH with keys."
    else hint0
  let hint := if has_ssh then hint1 else hint1 ++ " SSH client not found, SSH fallback disabled."
  let body := if stderr ≠ "" then stderr else "unknown error"
  "git clone failed: " ++ body ++ ". " ++ hint

/-! ### `mcp_client.py`

The HTTP transport is abstracted as an oracle: a queue of JSON-RPC call
outcomes, one consumed per `_send_request` or `_send_notification` (each of
which performs one POST).  `Outcome.reply v` models a response whose matched
JSON-RPC entry carries `result = v`; `Outcome.fail m` models any
`MCPClientError` raised inside the call (transport failure, HTTP error
status, missing or unmatched response, or a JSON-RPC `error` member with
message `m`).  An exhausted queue models an empty response list.  The `sent`
log records each request issued, so theorems can count tool invocations. -/

namespace MCP

inductive Outcome where
  | reply (v : JValue)
  | fail (msg : String)

structure Sent where
  method : String
  toolName : Option String
deriving DecidableEq

/-- The mutable session state of `MCPHttpClient`. -/
structure ClientState where
  session_id : Option String := none
  protocol_version : Option JValue := none
  initialized : Bool := false

/-- Result of running a client operation: its return value or raised error,
the final session state, the unconsumed oracle, and the requests sent. -/
structure MCRes (α : Type) where
  result : Except String α
  state : ClientState
  oracle : List Outcome
  sent : List Sent

def takeOutcome : List Outcome → Outcome × List Outcome
  | [] => (.fail "No response from MCP server", [])
  | o :: rest => (o, rest)

/-- Embeds `ensure_initialized`: on the uninitialized path, send `initialize`,
require a dict result carrying a non-null `protocolVersion`, record it and
mark the session initialized, then send the `notifications/initialized`
notification.  (The handshake lock serializes concurrent first calls; the
model is the single-threaded execution it guards.) -/
def ensure_initialized (st : ClientState) (oracle : List Outcome) : MCRes Unit :=
  if st.initialized then ⟨.ok (), st, oracle, []⟩
  else
    let (o, rest) := takeOutcome oracle
    match o with
    | .fail m => ⟨.error m, st, rest, [⟨"initialize", none⟩]⟩
    | .reply v =>
      match v with
      | .jobj fields =>
        match jFieldsGetOpt fields "protocolVersion" with
        | none =>
          ⟨.error "MCP server did not provide protocolVersion", st, rest,
            [⟨"initialize", none⟩]⟩
        | some pv =>
          let st' := { st with protocol_version := some pv, initialized := true }
          let (o2, rest2) := takeOutcome rest
          match o2 with
          | .fail m =>
            ⟨.error m, st', rest2,
              [⟨"initialize", none⟩, ⟨"notifications/initialized", none⟩]⟩
          | .reply _ =>
            ⟨.ok (), st', rest2,
              [⟨"initialize", none⟩, ⟨"notifications/initialized", none⟩]⟩
      | _ => ⟨.error "Invalid initialize response from MCP server", st, rest,
          [⟨"initialize", none⟩]⟩

def pyOrJ (a b : JValue) : JValue := if jTruthy a then a else b

/-- The structured-content extraction of `discover_library`: the
`structuredContent` field, else the `data` field, else the whole result; a
list yields its first element or nothing; a dict is returned as is; any
other truthy shape is a protocol error. -/
def interpretDiscover (fields : List (String × JValue)) : Except String (Option JValue) :=
  let structured := pyOrJ (jFieldsGet fields "structuredContent")
    (pyOrJ (jFieldsGet fields "data") (.jobj fields))
  match structured with
  | .jnull => .ok none
  | .jarr xs => .ok xs.head?
  | .jobj f => .ok (some (.jobj f))
  | _ => .error "Unexpected structured content from MCP server"

/-- The structured-content extraction of the client's `analyze_file`: only a
dict-valued `structuredContent` is accepted. -/
def interpretAnalyze (fields : List (String × JValue)) : Except String (Option JValue) :=
  match jFieldsGet fields "structuredContent" with
  | .jobj f => .ok (some (.jobj f))
  | _ => .error "Unexpected structured content from MCP server"

/-- The state reset performed when the server reports it is not initialized:
`_initialized = False`, `_session_id = None`, `_protocol_version = None`. -/
def resetState : ClientState := ⟨none, none, false⟩

/-- Embeds `discover_library`: handshake if needed, send the
`tools_call` request for `discover-library-info`, and on an
`MCPClientError` whose message contains `Server not initialized` reset the
session state, re-handshake, and retry the call exactly once, any further
error propagating. -/
def discover_library (st : ClientState) (oracle : List Outcome) : MCRes (Option JValue) :=
  let r1 := ensure_initialized st oracle
  match r1.result with
  | .error m => ⟨.error m, r1.state, r1.oracle, r1.sent⟩
  | .ok _ =>
    let (o, rest) := takeOutcome r1.oracle
    let sent1 := r1.sent ++ [⟨"tools_call", some "discover-library-info"⟩]
    match o with
    | .reply v =>
      match v with
      | .jobj fields => ⟨interpretDiscover fields, r1.state, rest, sent1⟩
      | _ => ⟨.ok none, r1.state, rest, sent1⟩
    | .fail m =>
      if substrS "Server not initialized" m then
        let r2 := ensure_initialized resetState rest
        match r2.result with
        | .error m2 => ⟨.error m2, r2.state, r2.oracle, sent1 ++ r2.sent⟩
        | .ok _ =>
          let (o2, rest2) := takeOutcome r2.oracle
          let sent2 := sent1 ++ r2.sent ++ [⟨"tools_call", some "discover-library-info"⟩]
          match o2 with
          | .reply v =>
            match v with
            | .jobj fields => ⟨interpretDiscover fields, r2.state, rest2, sent2⟩
            | _ => ⟨.ok none, r2.state, rest2, sent2⟩
          | .fail m2 => ⟨.error m2, r2.state, rest2, sent2⟩
      else ⟨.error m, r1.state, rest, sent1⟩

/-- Embeds the client's `analyze_file`: identical control flow to
`discover_library` with the `analyze-file` tool and the stricter
structured-content extraction. -/
def analyze_file (st : ClientState) (oracle : List Outcome) : MCRes (Option JValue) :=
  let r1 := ensure_initialized st oracle
  match r1.result with
  | .error m => ⟨.error m, r1.state, r1.oracle, r1.sent⟩
  | .ok _ =>
    let (o, rest) := takeOutcome r1.oracle
    let sent1 := r1.sent ++ [⟨"tools_call", some "analyze-file"⟩]
    match o with
    | .reply v =>
      match v with
      | .jobj fields => ⟨interpretAnalyze fields, r1.state, rest, sent1⟩
      | _ => ⟨.ok none, r1.state, rest, sent1⟩
    | .fail m =>
      if substrS "Server not initialized" m then
        let r2 := ensure_initialized resetState rest
        match r2.result with
        | .error m2 => ⟨.error m2, r2.state, r2.oracle, sent1 ++ r2.sent⟩
        | .ok _ =>
          let (o2, rest2) := takeOutcome r2.oracle
          let sent2 := sent1 ++ r2.sent ++ [⟨"tools_call", some "analyze-file"⟩]
          match o2 with
          | .reply v =>
            match v with
            | .jobj fields => ⟨interpretAnalyze fields, r2.state, rest2, sent2⟩
            | _ => ⟨.ok none, r2.state, rest2, sent2⟩
          | .fail m2 => ⟨.error m2, r2.state, rest2, sent2⟩
      else ⟨.error m, r1.state, rest, sent1⟩

end MCP

/-! ### Auxiliary model definitions used by the theorems below -/

/-- The invariant of the `resolved_index` map: every stored record's identity
equals its key, and keys are unique. -/
def IdxGood (idx : List ((String × String) × Enriched)) : Prop :=
  (∀ p ∈ idx, scanKey p.2 = p.1) ∧ (idx.map Prod.fst).Nodup

def HasKey (idx : List ((String × String) × Enriched)) (k : String × String) : Prop :=
  ∃ p ∈ idx, p.1 = k

def SrcIn (idx : List ((String × String) × Enriched)) (k : String × String)
    (s : String) : Prop :=
  ∃ p ∈ idx, p.1 = k ∧ s ∈ p.2.sources

/-- `containsFileAt entries p n`: descending from `entries` through the
directory components of `p` reaches a directory holding the file `n`. -/
def containsFileAt : List FsTree → List String → String → Prop
  | entries, [], n => FsTree.file n ∈ entries
  | entries, d :: rest, n =>
    ∃ sub, FsTree.dir d sub ∈ entries ∧ containsFileAt sub rest n

/-- Whether an initialize result carries an accepted protocol version: a
dict whose `protocolVersion` member is present and non-null. -/
def hasProtocolVersion : JValue → Bool
  | .jobj f => (jFieldsGetOpt f "protocolVersion").isSome
  | _ => false

/-- Concrete resolution event for the claim C3 witness: `Foo` at `^1.2.3`
seen in `a/package.json`. -/
def fooEventA : Enriched :=
  { name := "Foo", version := some "^1.2.3", ecosystem := "npm",
    risk_score := none, risk_level := none, risk_score_explanation := none,
    license_risk_score := none, security_risk_score := none,
    maintenance_risk_score := none, usage_context_risk_score := none,
    sources := ["a/package.json"], library_id := none, repository_url := none }

/-- Concrete resolution event for the claim C3 witness: `foo` at `v1.2.3`
seen in `b/package.json`. -/
def fooEventB : Enriched :=
  { name := "foo", version := some "v1.2.3", ecosystem := "npm",
    risk_score := none, risk_level := none, risk_score_explanation := none,
    license_risk_score := none, security_risk_score := none,
    maintenance_risk_score := none, usage_context_risk_score := none,
    sources := ["b/package.json"], library_id := none, repository_url := none }

/-! ### Helper lemmas on the risk heuristic -/

theorem pyRound_intCast (n : ℤ) : pyRound ((n : ℚ)) = n := by
  simp [pyRound]

theorem risk_of_strong (ln : Option String) (ls : Option (List SummaryItem))
    (conf : Option ℚ) (h : hasStrongMarkers ln ls = true) :
    (compute_risk_from_license ln ls conf).level = "high" ∧
    (compute_risk_from_license ln ls conf).score =
      min 100 (max 0 (pyRound (90 * confOrOne conf))) := by
  simp [compute_risk_from_license, h]

theorem risk_of_weak (ln : Option String) (ls : Option (List SummaryItem))
    (conf : Option ℚ) (hs : hasStrongMarkers ln ls = false)
    (hw : hasWeakMarkers ln ls = true) :
    (compute_risk_from_license ln ls conf).level = "medium" ∧
    (compute_risk_from_license ln ls conf).score =
      min 100 (max 0 (pyRound (60 * confOrOne conf))) := by
  simp [compute_risk_from_license, hs, hw]

theorem risk_of_perm (ln : Option String) (ls : Option (List SummaryItem))
    (conf : Option ℚ) (hs : hasStrongMarkers ln ls = false)
    (hw : hasWeakMarkers ln ls = false) (hp : hasPermMarkers ln ls = true) :
    (compute_risk_from_license ln ls conf).level = "low" ∧
    (compute_risk_from_license ln ls conf).score =
      min 100 (max 0 (pyRound (10 * confOrOne conf))) := by
  simp [compute_risk_from_license, hs, hw, hp]

theorem risk_of_unknown (ln : Option String) (ls : Option (List SummaryItem))
    (conf : Option ℚ) (hs : hasStrongMarkers ln ls = false)
    (hw : hasWeakMarkers ln ls = false) (hp : hasPermMarkers ln ls = false) :
    (compute_risk_from_license ln ls conf).level = "unknown" ∧
    (compute_risk_from_license ln ls conf).score =
      min 100 (max 0 (pyRound (50 * confOrOne conf))) := by
  simp [compute_risk_from_license, hs, hw, hp]

/-! ### Claim C1 -/

/-- Claim C1 (code bug): the manifest parsers are claimed never to raise, in
particular on content that is valid JSON but not a JSON object, or whose
dependency sections are not objects.  `parse_package_json` only catches
`json.JSONDecodeError`, so a top-level JSON array raises `AttributeError`
(`list` has no `get`), a non-object `dependencies` section raises
`AttributeError` (`list` has no `items`), and the error escapes
`analyze_file`'s npm dispatch as well. -/
theorem claim_C1_bug :
    parse_package_json (.ok (.jarr [])) = .error .attributeError ∧
    parse_package_json (.ok (.jobj [("dependencies", .jarr [.jnum 1])])) =
      .error .attributeError ∧
    analyze_file "package.json" "[]" (.ok (.jarr [])) (.error ())
      (fun _ _ => none) (fun _ _ => none) = .error .attributeError :=
  ⟨rfl, rfl, rfl⟩

/-! ### Claim C2 -/

/-- Claim C2: `compute_risk_from_license` assigns base 90 to the
strong-copyleft class, 60 to weak copyleft, 10 to permissive and 50 to
unknown, with final score `round(base * confidence)` clamped to the range
0..100 and confidence defaulting to 1 when absent or non-numeric; in
particular license name `GPL-3.0` at confidence 1 yields level `high` and
score 90. -/
theorem claim_C2 :
    (∀ (ln : Option String) (ls : Option (List SummaryItem)) (conf : Option ℚ),
      (hasStrongMarkers ln ls = true →
        (compute_risk_from_license ln ls conf).level = "high" ∧
        (compute_risk_from_license ln ls conf).score =
          min 100 (max 0 (pyRound (90 * confOrOne conf)))) ∧
      (hasStrongMarkers ln ls = false → hasWeakMarkers ln ls = true →
        (compute_risk_from_license ln ls conf).level = "medium" ∧
        (compute_risk_from_license ln ls conf).score =
          min 100 (max 0 (pyRound (60 * confOrOne conf)))) ∧
      (hasStrongMarkers ln ls = false → hasWeakMarkers ln ls = false →
          hasPermMarkers ln ls = true →
        (compute_risk_from_license ln ls conf).level = "low" ∧
        (compute_risk_from_license ln ls conf).score =
          min 100 (max 0 (pyRound (10 * confOrOne conf)))) ∧
      (hasStrongMarkers ln ls = false → hasWeakMarkers ln ls = false →
          hasPermMarkers ln ls = false →
        (compute_risk_from_license ln ls conf).level = "unknown" ∧
        (compute_risk_from_license ln ls conf).score =
          min 100 (max 0 (pyRound (50 * confOrOne conf))))) ∧
    (compute_risk_from_license (some "GPL-3.0") none (some 1)).level = "high" ∧
    (compute_risk_from_license (some "GPL-3.0") none (some 1)).score = 90 := by
  refine ⟨fun ln ls conf => ⟨risk_of_strong ln ls conf,
    risk_of_weak ln ls conf, risk_of_perm ln ls conf, risk_of_unknown ln ls conf⟩,
    (risk_of_strong (some "GPL-3.0") none (some 1) (by decide)).1, ?_⟩
  rw [(risk_of_strong (some "GPL-3.0") none (some 1) (by decide)).2]
  have h : (90 : ℚ) * confOrOne (some 1) = ((90 : ℤ) : ℚ) := by
    norm_num [confOrOne]
  rw [h, pyRound_intCast]
  decide

/-- Witness for claim C2: the theorem applied at concrete inputs of each
class, every hypothesis discharged by evaluation. -/
theorem claim_C2_witness :
    ((compute_risk_from_license (some "Apache-2.0") none none).level = "low" ∧
      (compute_risk_from_license (some "Apache-2.0") none none).score =
        min 100 (max 0 (pyRound (10 * confOrOne none)))) ∧
    ((compute_risk_from_license (some "SomethingElse") none none).level = "unknown" ∧
      (compute_risk_from_license (some "SomethingElse") none none).score =
        min 100 (max 0 (pyRound (50 * confOrOne none)))) :=
  ⟨(claim_C2.1 (some "Apache-2.0") none none).2.2.1 (by decide) (by decide) (by decide),
   (claim_C2.1 (some "SomethingElse") none none).2.2.2 (by decide) (by decide) (by decide)⟩

/-! ### Claim C5 -/

/-- Counterexample to claim C5: the claim offers license name `LGPL-3.0` as
an input carrying a weak-copyleft marker and none of the strong family, to be
classified `medium` with base 60.  But the strong test is a substring search
and `lgpl-3.0` contains `gpl`, so the code classifies it `high` with score
90 — the weak marker (`lgpl`) is indeed present, yet the strong class wins. -/
theorem claim_C5_cex :
    hasWeakMarkers (some "LGPL-3.0") none = true ∧
    (compute_risk_from_license (some "LGPL-3.0") none none).level = "high" ∧
    (compute_risk_from_license (some "LGPL-3.0") none none).score = 90 := by
  refine ⟨by decide, (risk_of_strong (some "LGPL-3.0") none none (by decide)).1, ?_⟩
  rw [(risk_of_strong (some "LGPL-3.0") none none (by decide)).2]
  have h : (90 : ℚ) * confOrOne none = ((90 : ℤ) : ℚ) := by norm_num [confOrOne]
  rw [h, pyRound_intCast]
  decide

/-- Claim C5 as amended: strong markers outrank weak markers, which outrank
permissive ones — whenever the combined text matches a weak-copyleft marker
and matches no strong-family marker (substring matching, so a text such as
`LGPL-3.0` does contain the strong marker `gpl` and is excluded), the
classification is the weak class: level `medium` with base 60.  `MPL-2.0`
is such an input and yields level `medium`, score 60. -/
theorem claim_C5_amended :
    (∀ (ln : Option String) (ls : Option (List SummaryItem)) (conf : Option ℚ),
      hasWeakMarkers ln ls = true → hasStrongMarkers ln ls = false →
        (compute_risk_from_license ln ls conf).level = "medium" ∧
        (compute_risk_from_license ln ls conf).score =
          min 100 (max 0 (pyRound (60 * confOrOne conf)))) ∧
    (compute_risk_from_license (some "MPL-2.0") none none).level = "medium" ∧
    (compute_risk_from_license (some "MPL-2.0") none none).score = 60 := by
  refine ⟨fun ln ls conf hw hs => risk_of_weak ln ls conf hs hw,
    (risk_of_weak (some "MPL-2.0") none none (by decide) (by decide)).1, ?_⟩
  rw [(risk_of_weak (some "MPL-2.0") none none (by decide) (by decide)).2]
  have h : (60 : ℚ) * confOrOne none = ((60 : ℤ) : ℚ) := by norm_num [confOrOne]
  rw [h, pyRound_intCast]
  decide

/-- Witness for the amended claim C5: the theorem applied at `MPL-2.0`. -/
theorem claim_C5_amended_witness :
    (compute_risk_from_license (some "MPL-2.0") none none).level = "medium" ∧
    (compute_risk_from_license (some "MPL-2.0") none none).score =
      min 100 (max 0 (pyRound (60 * confOrOne none))) :=
  claim_C5_amended.1 (some "MPL-2.0") none none (by decide) (by decide)

/-! ### Helper lemmas on the scan merge loop -/

theorem mem_insertSortedStr (s x : String) (l : List String) :
    s ∈ insertSortedStr x l ↔ s = x ∨ s ∈ l := by
  induction l with
  | nil => simp [insertSortedStr]
  | cons y ys ih =>
    by_cases h : strLeB x.data y.data
    · simp [insertSortedStr, h]
    · simp [insertSortedStr, h, ih]
      tauto

theorem mem_sortStrings (s : String) (l : List String) :
    s ∈ sortStrings l ↔ s ∈ l := by
  induction l with
  | nil => simp [sortStrings]
  | cons y ys ih => simp [sortStrings, mem_insertSortedStr, ih]

theorem mem_pySortedSetUnion (s : String) (a b : List String) :
    s ∈ pySortedSetUnion a b ↔ s ∈ a ∨ s ∈ b := by
  simp [pySortedSetUnion, mem_sortStrings]

theorem scanKey_mergeEnriched (a b : Enriched) :
    scanKey (mergeEnriched a b) = scanKey a := rfl

theorem mem_sources_mergeEnriched (s : String) (a b : Enriched) :
    s ∈ (mergeEnriched a b).sources ↔ s ∈ a.sources ∨ s ∈ b.sources := by
  simp [mergeEnriched, mem_pySortedSetUnion]

theorem insertResolved_spec (idx : List ((String × String) × Enriched))
    (e : Enriched) (hg : IdxGood idx) :
    IdxGood (insertResolved idx e) ∧
    (∀ k, HasKey (insertResolved idx e) k ↔ HasKey idx k ∨ scanKey e = k) ∧
    (∀ k s, SrcIn (insertResolved idx e) k s ↔
      SrcIn idx k s ∨ (scanKey e = k ∧ s ∈ e.sources)) := by
  by_cases hc : idx.any (fun p => decide (p.1 = scanKey e)) = true
  · have hmem : ∃ p ∈ idx, p.1 = scanKey e := by
      simpa using List.any_eq_true.mp hc
    have hres : insertResolved idx e =
        idx.map (fun p => if p.1 = scanKey e then (p.1, mergeEnriched p.2 e) else p) := by
      simp [insertResolved, hc]
    have hfst : ∀ p : (String × String) × Enriched,
        (if p.1 = scanKey e then (p.1, mergeEnriched p.2 e) else p).1 = p.1 := by
      intro p; by_cases h : p.1 = scanKey e
      · rw [if_pos h]
      · rw [if_neg h]
    refine ⟨⟨?_, ?_⟩, ?_, ?_⟩
    · rw [hres]
      intro p' hp'
      obtain ⟨p, hp, hfp⟩ := List.mem_map.mp hp'
      by_cases h : p.1 = scanKey e
      · have he : p' = (p.1, mergeEnriched p.2 e) := by rw [← hfp, if_pos h]
        rw [he]
        exact (scanKey_mergeEnriched p.2 e).trans (hg.1 p hp)
      · have he : p' = p := by rw [← hfp, if_neg h]
        rw [he]; exact hg.1 p hp
    · rw [hres, List.map_map]
      have hcong : idx.map (Prod.fst ∘ fun p =>
          if p.1 = scanKey e then (p.1, mergeEnriched p.2 e) else p) =
          idx.map Prod.fst := by
        apply List.map_congr_left
        intro p _
        exact hfst p
      rw [hcong]
      exact hg.2
    · intro k
      rw [hres]
      constructor
      · rintro ⟨p', hp', hk⟩
        obtain ⟨p, hp, hfp⟩ := List.mem_map.mp hp'
        refine Or.inl ⟨p, hp, ?_⟩
        have h2 : (if p.1 = scanKey e then (p.1, mergeEnriched p.2 e) else p).1 = k := by
          rw [hfp]; exact hk
        rw [hfst p] at h2
        exact h2
      · rintro (⟨p, hp, hk⟩ | hk)
        · refine ⟨_, List.mem_map_of_mem _ hp, ?_⟩
          exact (hfst p).trans hk
        · obtain ⟨p, hp, hpk⟩ := hmem
          refine ⟨_, List.mem_map_of_mem _ hp, ?_⟩
          exact (hfst p).trans (hpk.trans hk)
    · intro k s
      constructor
      · rintro hsrc
        rw [hres] at hsrc
        obtain ⟨p', hp', hk', hs⟩ := hsrc
        obtain ⟨p, hp, hfp⟩ := List.mem_map.mp hp'
        have hpk : p.1 = k := by
          rw [← hfst p, hfp]; exact hk'
        by_cases h : p.1 = scanKey e
        · have he : p' = (p.1, mergeEnriched p.2 e) := by rw [← hfp, if_pos h]
          rw [he] at hs
          rcases (mem_sources_mergeEnriched s p.2 e).mp hs with hx | hx
          · exact Or.inl ⟨p, hp, hpk, hx⟩
          · exact Or.inr ⟨h.symm.trans hpk, hx⟩
        · have he : p' = p := by rw [← hfp, if_neg h]
          rw [he] at hs
          exact Or.inl ⟨p, hp, hpk, hs⟩
      · rintro (⟨p, hp, hk', hs⟩ | ⟨hke, hs⟩)
        · rw [hres]
          by_cases h : p.1 = scanKey e
          · refine ⟨(p.1, mergeEnriched p.2 e), ?_, hk', ?_⟩
            · have h2 : (if p.1 = scanKey e then (p.1, mergeEnriched p.2 e) else p) ∈
                  idx.map (fun p => if p.1 = scanKey e then (p.1, mergeEnriched p.2 e)
                    else p) :=
                List.mem_map_of_mem _ hp
              rwa [if_pos h] at h2
            · exact (mem_sources_mergeEnriched s p.2 e).mpr (Or.inl hs)
          · refine ⟨p, ?_, hk', hs⟩
            have h2 : (if p.1 = scanKey e then (p.1, mergeEnriched p.2 e) else p) ∈
                idx.map (fun p => if p.1 = scanKey e then (p.1, mergeEnriched p.2 e)
                  else p) :=
              List.mem_map_of_mem _ hp
            rwa [if_neg h] at h2
        · rw [hres]
          obtain ⟨p, hp, hpk⟩ := hmem
          refine ⟨(p.1, mergeEnriched p.2 e), ?_, hpk.trans hke, ?_⟩
          · have h2 : (if p.1 = scanKey e then (p.1, mergeEnriched p.2 e) else p) ∈
                idx.map (fun p => if p.1 = scanKey e then (p.1, mergeEnriched p.2 e)
                  else p) :=
              List.mem_map_of_mem _ hp
            rwa [if_pos hpk] at h2
          · exact (mem_sources_mergeEnriched s p.2 e).mpr (Or.inr hs)
  · have hnone : ¬ ∃ p ∈ idx, p.1 = scanKey e := by
      intro ⟨p, hp, hk⟩
      exact hc (List.any_eq_true.mpr ⟨p, hp, by simp [hk]⟩)
    have hres : insertResolved idx e = idx ++ [(scanKey e, e)] := by
      simp [insertResolved, hc]
    refine ⟨⟨?_, ?_⟩, ?_, ?_⟩
    · rw [hres]
      intro p hp
      rcases List.mem_append.mp hp with h | h
      · exact hg.1 p h
      · simp at h; subst h; rfl
    · rw [hres]
      simp only [List.map_append, List.map_cons, List.map_nil]
      rw [List.nodup_append]
      refine ⟨hg.2, List.nodup_singleton _, ?_⟩
      intro a ha hb
      simp at hb
      subst hb
      obtain ⟨p, hp, hk⟩ := List.mem_map.mp ha
      exact hnone ⟨p, hp, hk⟩
    · intro k
      rw [hres]
      constructor
      · rintro ⟨p, hp, hk⟩
        rcases List.mem_append.mp hp with h | h
        · exact Or.inl ⟨p, h, hk⟩
        · simp at h; subst h; exact Or.inr hk
      · rintro (⟨p, hp, hk⟩ | hk)
        · exact ⟨p, List.mem_append.mpr (Or.inl hp), hk⟩
        · exact ⟨(scanKey e, e), List.mem_append.mpr (Or.inr (by simp)), hk⟩
    · intro k s
      rw [hres]
      constructor
      · rintro ⟨p, hp, hk, hs⟩
        rcases List.mem_append.mp hp with h | h
        · exact Or.inl ⟨p, h, hk, hs⟩
        · simp at h; subst h; exact Or.inr ⟨hk, hs⟩
      · rintro (⟨p, hp, hk, hs⟩ | ⟨hk, hs⟩)
        · exact ⟨p, List.mem_append.mpr (Or.inl hp), hk, hs⟩
        · exact ⟨(scanKey e, e), List.mem_append.mpr (Or.inr (by simp)), hk, hs⟩

theorem countP_key_eq_one {l : List (String × String)} {k : String × String}
    (hn : l.Nodup) (hm : k ∈ l) : l.countP (fun x => decide (x = k)) = 1 := by
  induction l with
  | nil => cases hm
  | cons a l ih =>
    rw [List.countP_cons]
    rcases List.mem_cons.mp hm with rfl | hm'
    · have hk : k ∉ l := (List.nodup_cons.mp hn).1
      have h0 : l.countP (fun x => decide (x = k)) = 0 := by
        rw [List.countP_eq_zero]
        intro x hx
        simp only [decide_eq_true_eq]
        exact fun he => hk (he ▸ hx)
      simp [h0]
    · have h1 := ih (List.nodup_cons.mp hn).2 hm'
      have ha : ¬ (a = k) := fun he => (List.nodup_cons.mp hn).1 (he ▸ hm')
      simp [h1, ha]

theorem foldl_insertResolved_spec (events : List Enriched) :
    ∀ idx, IdxGood idx →
    IdxGood (events.foldl insertResolved idx) ∧
    (∀ k, HasKey (events.foldl insertResolved idx) k ↔
      HasKey idx k ∨ ∃ e ∈ events, scanKey e = k) ∧
    (∀ k s, SrcIn (events.foldl insertResolved idx) k s ↔
      SrcIn idx k s ∨ ∃ e ∈ events, scanKey e = k ∧ s ∈ e.sources) := by
  induction events with
  | nil =>
    intro idx h
    refine ⟨h, fun k => ?_, fun k s => ?_⟩ <;> simp
  | cons e es ih =>
    intro idx h
    have step := insertResolved_spec idx e h
    have rec := ih (insertResolved idx e) step.1
    refine ⟨rec.1, ?_, ?_⟩
    · intro k
      rw [List.foldl_cons, rec.2.1 k, step.2.1 k]
      simp only [List.mem_cons, exists_eq_or_imp]
      tauto
    · intro k s
      rw [List.foldl_cons, rec.2.2 k s, step.2.2 k s]
      simp only [List.mem_cons, exists_eq_or_imp]
      tauto

/-! ### Claim C3 -/

/-- Claim C3: within one scan, all resolved dependency occurrences sharing a
deduplication identity (lower-cased name with lower-cased normalized version,
`^`/`v` prefixes stripped) collapse to exactly one entry of
`perform_repo_scan`'s final dependencies list, and that entry's `sources`
holds exactly the manifest paths recorded by every occurrence of that
identity. -/
theorem claim_C3 : ∀ (events : List Enriched) (k : String × String),
    (∃ e ∈ events, scanKey e = k) →
    (performScanAggregate events).countP (fun r => decide (scanKey r = k)) = 1 ∧
    ∀ r ∈ performScanAggregate events, scanKey r = k →
      ∀ s, s ∈ r.sources ↔ ∃ e ∈ events, scanKey e = k ∧ s ∈ e.sources := by
  intro events k hk
  have hgood0 : IdxGood ([] : List ((String × String) × Enriched)) := by
    constructor <;> simp
  have spec := foldl_insertResolved_spec events [] hgood0
  have hkey : HasKey (events.foldl insertResolved []) k := by
    rw [spec.2.1 k]
    exact Or.inr hk
  constructor
  · have h1 : (performScanAggregate events).countP (fun r => decide (scanKey r = k)) =
        (events.foldl insertResolved []).countP (fun p => decide (p.1 = k)) := by
      rw [performScanAggregate, List.countP_map]
      apply List.countP_congr
      intro p hp
      simp only [Function.comp_apply]
      rw [spec.1.1 p hp]
    rw [h1]
    have h2 : (events.foldl insertResolved []).countP (fun p => decide (p.1 = k)) =
        ((events.foldl insertResolved []).map Prod.fst).countP
          (fun x => decide (x = k)) := by
      rw [List.countP_map]; rfl
    rw [h2]
    obtain ⟨p, hp, hpk⟩ := hkey
    have hmem2 : k ∈ (events.foldl insertResolved []).map Prod.fst := by
      rw [← hpk]
      exact List.mem_map_of_mem _ hp
    exact countP_key_eq_one spec.1.2 hmem2
  · intro r hr hrk s
    obtain ⟨p, hp, hps⟩ := List.mem_map.mp hr
    have hpk : p.1 = k := by rw [← spec.1.1 p hp, hps, hrk]
    constructor
    · intro hs
      have hsrc : SrcIn (events.foldl insertResolved []) k s :=
        ⟨p, hp, hpk, hps ▸ hs⟩
      rcases (spec.2.2 k s).mp hsrc with h | h
      · obtain ⟨q, hq, -⟩ := h
        exact absurd hq (by simp)
      · exact h
    · intro h
      have hsrc : SrcIn (events.foldl insertResolved []) k s :=
        (spec.2.2 k s).mpr (Or.inr h)
      obtain ⟨q, hq, hqk, hqs⟩ := hsrc
      have hqp : q = p :=
        List.inj_on_of_nodup_map spec.1.2 hq hp (hqk.trans hpk.symm)
      rw [← hps, ← hqp]
      exact hqs

/-- Witness for claim C3: `Foo` at `^1.2.3` in one manifest and `foo` at
`v1.2.3` in another collapse to one entry whose sources cover both files. -/
theorem claim_C3_witness :
    (performScanAggregate [fooEventA, fooEventB]).countP
      (fun r => decide (scanKey r = ("foo", "1.2.3"))) = 1 ∧
    ∀ r ∈ performScanAggregate [fooEventA, fooEventB],
      scanKey r = ("foo", "1.2.3") →
      ∀ s, s ∈ r.sources ↔ s ∈ ["a/package.json", "b/package.json"] := by
  have h := claim_C3 [fooEventA, fooEventB] ("foo", "1.2.3") (by decide)
  refine ⟨h.1, ?_⟩
  intro r hr hrk s
  rw [h.2 r hr hrk s]
  constructor
  · rintro ⟨e, he, -, hs⟩
    simp only [List.mem_cons, List.not_mem_nil, or_false] at he
    simp only [List.mem_cons, List.not_mem_nil, or_false]
    rcases he with rfl | rfl
    · exact Or.inl (by simpa [fooEventA] using hs)
    · exact Or.inr (by simpa [fooEventB] using hs)
  · intro hs
    simp only [List.mem_cons, List.not_mem_nil, or_false] at hs
    rcases hs with rfl | rfl
    · exact ⟨fooEventA, by simp, by decide, by simp [fooEventA]⟩
    · exact ⟨fooEventB, by simp, by decide, by simp [fooEventB]⟩

/-! ### Helper lemmas on manifest discovery -/

theorem ignored_not_csproj : ∀ d ∈ IGNORED_DIRS, endsW d ".csproj" = false := by
  decide

theorem ignoredPart_csproj (n : String) (h : endsW n ".csproj" = true) :
    ignoredPart n = false := by
  have hni : decide (n ∈ IGNORED_DIRS) = false := by
    rw [decide_eq_false_iff_not]
    intro hmem
    have h2 := ignored_not_csproj n hmem
    rw [h] at h2
    cases h2
  simp [ignoredPart, hni, h]

theorem ignoredPart_of_kept (d : String) (h1 : d ∉ IGNORED_DIRS)
    (h2 : startsW d "." = false) : ignoredPart d = false := by
  simp [ignoredPart, h1, h2]

theorem prefB_map_toLower (p : List Char) (hp : ∀ c ∈ p, Char.toLower c = c) :
    ∀ l : List Char, prefB p l = true → prefB p (l.map Char.toLower) = true := by
  induction p with
  | nil => intro l _; rfl
  | cons a p' ih =>
    intro l h
    cases l with
    | nil => cases h
    | cons b l' =>
      rw [List.map_cons]
      rw [prefB] at h ⊢
      have h' := h
      simp only [Bool.and_eq_true] at h'
      obtain ⟨h1, h2⟩ := h'
      have hab : a = b := beq_iff_eq.mp h1
      have hlb : Char.toLower b = b := by
        rw [← hab]; exact hp a (by simp)
      rw [hlb, h1, ih (fun c hc => hp c (by simp [hc])) l' h2]
      rfl

/-- A lower-cased `.csproj` suffix check follows from the case-sensitive
one (the suffix's own characters are fixed by lower-casing). -/
theorem endsW_lower_csproj (n : String) (h : endsW n ".csproj" = true) :
    endsW (lowerS n) ".csproj" = true := by
  rw [endsW] at h ⊢
  rw [lowerS]
  show prefB ".csproj".data.reverse ((n.data.map Char.toLower).reverse) = true
  rw [← List.map_reverse]
  exact prefB_map_toLower _ (by decide) _ h

theorem is_dependency_file_csproj (n : String) (h : endsW n ".csproj" = true) :
    is_dependency_file n = true := by
  rw [is_dependency_file, if_pos (endsW_lower_csproj n h)]

theorem mem_walkEntries_of_mem {pre : List String} {t : FsTree}
    {entries : List FsTree} (ht : t ∈ entries) {x : List String}
    (hx : x ∈ walkEntry pre t) : x ∈ walkEntries pre entries := by
  induction entries with
  | nil => cases ht
  | cons a l ih =>
    rw [walkEntries]
    rcases List.mem_cons.mp ht with rfl | h
    · exact List.mem_append.mpr (Or.inl hx)
    · exact List.mem_append.mpr (Or.inr (ih h))

theorem should_ignore_parts_eq_false {parts : List String}
    (h : ∀ d ∈ parts, ignoredPart d = false) :
    should_ignore_parts parts = false := by
  rw [should_ignore_parts, List.any_eq_false]
  intro d hd
  simp [h d hd]

theorem mem_collect_walk : ∀ (p pre : List String) (entries : List FsTree)
    (n : String),
    containsFileAt entries p n →
    (∀ d ∈ p, d ∉ IGNORED_DIRS ∧ startsW d "." = false) →
    (∀ d ∈ pre, ignoredPart d = false) →
    is_dependency_file n = true →
    ignoredPart n = false →
    pre ++ (p ++ [n]) ∈ collectManifests pre entries ++ walkEntries pre entries := by
  intro p
  induction p with
  | nil =>
    intro pre entries n hc hp hpre hdep hn
    simp only [containsFileAt] at hc
    apply List.mem_append.mpr
    left
    have hrel : should_ignore_parts (relParts pre) = false := by
      rw [relParts]
      by_cases hp0 : pre = []
      · rw [if_pos hp0]; decide
      · rw [if_neg hp0]; exact should_ignore_parts_eq_false hpre
    have hfull : should_ignore_parts (pre ++ [n]) = false := by
      apply should_ignore_parts_eq_false
      intro d hd
      rcases List.mem_append.mp hd with h | h
      · exact hpre d h
      · simp at h; subst h; exact hn
    rw [collectManifests, if_neg (by simp [hrel])]
    apply List.mem_map.mpr
    refine ⟨n, ?_, by simp⟩
    apply List.mem_filter.mpr
    refine ⟨?_, by simp [hdep, hfull]⟩
    apply List.mem_filterMap.mpr
    exact ⟨.file n, hc, rfl⟩
  | cons d rest ih =>
    intro pre entries n hc hp hpre hdep hn
    simp only [containsFileAt] at hc
    obtain ⟨sub, hsub, hcsub⟩ := hc
    apply List.mem_append.mpr
    right
    have hd := hp d (by simp)
    have hx : (pre ++ [d]) ++ (rest ++ [n]) ∈
        collectManifests (pre ++ [d]) sub ++ walkEntries (pre ++ [d]) sub := by
      apply ih (pre ++ [d]) sub n hcsub
      · intro e he; exact hp e (by simp [he])
      · intro e he
        rcases List.mem_append.mp he with h | h
        · exact hpre e h
        · have he2 : e = d := by simpa using h
          rw [he2]
          exact ignoredPart_of_kept d hd.1 hd.2
      · exact hdep
      · exact hn
    have hw : (pre ++ [d]) ++ (rest ++ [n]) ∈ walkEntry pre (.dir d sub) := by
      rw [walkEntry, if_neg (by simp [hd.1, hd.2])]
      exact hx
    have hfin := mem_walkEntries_of_mem hsub hw
    simpa [List.append_assoc] using hfin

theorem collectManifests_good (pre : List String) (entries : List FsTree) :
    ∀ x ∈ collectManifests pre entries, ∀ part ∈ x, ignoredPart part = false := by
  intro x hx part hpart
  rw [collectManifests] at hx
  by_cases h : should_ignore_parts (relParts pre) = true
  · rw [if_pos (by simp [h])] at hx
    cases hx
  · rw [if_neg (by simpa using h)] at hx
    obtain ⟨n, hn, hxn⟩ := List.mem_map.mp hx
    obtain ⟨-, hfilt⟩ := List.mem_filter.mp hn
    simp only [Bool.and_eq_true] at hfilt
    obtain ⟨-, hign⟩ := hfilt
    have hfalse : should_ignore_parts (pre ++ [n]) = false := by
      cases hsi : should_ignore_parts (pre ++ [n])
      · rfl
      · rw [hsi] at hign; cases hign
    rw [should_ignore_parts, List.any_eq_false] at hfalse
    have := hfalse part (by rw [← hxn] at hpart; exact hpart)
    cases hip : ignoredPart part
    · rfl
    · rw [hip] at this; cases this rfl

mutual

theorem walkEntry_good (pre : List String) (t : FsTree) :
    ∀ x ∈ walkEntry pre t, ∀ part ∈ x, ignoredPart part = false := by
  match t with
  | .file nm =>
    intro x hx
    rw [walkEntry] at hx
    cases hx
  | .dir d sub =>
    intro x hx
    rw [walkEntry] at hx
    by_cases hk : (decide (d ∈ IGNORED_DIRS) || startsW d ".") = true
    · rw [if_pos (by simp [hk])] at hx
      cases hx
    · rw [if_neg (by simpa using hk)] at hx
      rcases List.mem_append.mp hx with h | h
      · exact collectManifests_good _ _ x h
      · exact walkEntries_good (pre ++ [d]) sub x h

theorem walkEntries_good (pre : List String) (ts : List FsTree) :
    ∀ x ∈ walkEntries pre ts, ∀ part ∈ x, ignoredPart part = false := by
  match ts with
  | [] =>
    intro x hx
    rw [walkEntries] at hx
    cases hx
  | t :: ts' =>
    intro x hx
    rw [walkEntries] at hx
    rcases List.mem_append.mp hx with h | h
    · exact walkEntry_good pre t x h
    · exact walkEntries_good pre ts' x h

end

/-! ### Claim C10 -/

/-- Claim C10: the hidden-path exclusion of manifest discovery exempts
`.csproj` names — a dot-prefixed file ending in `.csproj`, sitting under
directories that are neither in the ignored set nor dot-prefixed, still
appears in `find_dependency_files`; and every returned path is free of
ignored-set components and of dot-prefixed components other than `.csproj`
names (`ignoredPart` is exactly that per-component test). -/
theorem claim_C10 :
    (∀ (root : List FsTree) (p : List String) (n : String),
      containsFileAt root p n →
      (∀ d ∈ p, d ∉ IGNORED_DIRS ∧ startsW d "." = false) →
      startsW n "." = true →
      endsW n ".csproj" = true →
      joinParts (p ++ [n]) ∈ find_dependency_files root) ∧
    (∀ (root : List FsTree), ∀ x ∈ find_dependency_parts root,
      ∀ part ∈ x, ignoredPart part = false) := by
  constructor
  · intro root p n hc hp _ hcs
    have hdep : is_dependency_file n = true := is_dependency_file_csproj n hcs
    have hn : ignoredPart n = false := ignoredPart_csproj n hcs
    have h := mem_collect_walk p [] root n hc hp (by simp) hdep hn
    rw [find_dependency_files]
    apply List.mem_map.mpr
    refine ⟨p ++ [n], ?_, rfl⟩
    rw [find_dependency_parts]
    simpa using h
  · intro root x hx part hpart
    rw [find_dependency_parts] at hx
    rcases List.mem_append.mp hx with h | h
    · exact collectManifests_good [] root x h part hpart
    · exact walkEntries_good [] root x h part hpart

/-- Witness for claim C10: `.hidden.csproj` under `src` is returned, in a
tree that also holds manifests under `node_modules` and `.git` (whose paths,
by the second conjunct, never appear). -/
theorem claim_C10_witness :
    joinParts (["src"] ++ [".hidden.csproj"]) ∈
      find_dependency_files
        [FsTree.dir "src" [FsTree.file ".hidden.csproj"],
         FsTree.dir "node_modules" [FsTree.file "package.json"],
         FsTree.dir ".git" [FsTree.file "pom.xml"]] :=
  claim_C10.1
    [FsTree.dir "src" [FsTree.file ".hidden.csproj"],
     FsTree.dir "node_modules" [FsTree.file "package.json"],
     FsTree.dir ".git" [FsTree.file "pom.xml"]]
    ["src"] ".hidden.csproj"
    (by
      refine ⟨[FsTree.file ".hidden.csproj"], by simp, ?_⟩
      simp [containsFileAt])
    (by decide) (by decide) (by decide)

/-! ### Claim C4 -/

/-- Counterexample to claim C4: the merge step is claimed never to overwrite
an already-set risk field.  But when the existing record's `risk_score` is
null and the new resolution carries one, the code copies `risk_score` *and*
`risk_level` together, replacing an already-set `risk_level`.  Here the first
resolution has `risk_level = low` and no score; the second has score 90 and
level `high`; the merged entry's level is `high`, not the already-set
`low`. -/
theorem claim_C4_cex :
    (performScanAggregate
      [{ name := "left-pad", version := some "1.0.0", ecosystem := "npm",
         risk_score := none, risk_level := some "low",
         risk_score_explanation := none, license_risk_score := none,
         security_risk_score := none, maintenance_risk_score := none,
         usage_context_risk_score := none, sources := ["a/package.json"],
         library_id := none, repository_url := none },
       { name := "left-pad", version := some "1.0.0", ecosystem := "npm",
         risk_score := some 90, risk_level := some "high",
         risk_score_explanation := none, license_risk_score := none,
         security_risk_score := none, maintenance_risk_score := none,
         usage_context_risk_score := none, sources := ["b/package.json"],
         library_id := none, repository_url := none }]).map
      (fun r => (r.risk_level, r.risk_score, r.sources)) =
    [(some "high", some 90, ["a/package.json", "b/package.json"])] := by
  decide

/-- Claim C4 as amended: merging a later resolution of the same identity
fills risk fields that are still null from the new record and never
overwrites an already-set `risk_score`, component score, or truthy
explanation; however `risk_level` is only preserved while `risk_score` is
set — when the existing `risk_score` is null and the new record carries one,
both `risk_score` and `risk_level` are copied from the new record, replacing
any `risk_level` already set. -/
theorem claim_C4_amended : ∀ existing enriched : Enriched,
    (existing.risk_score ≠ none →
      (mergeEnriched existing enriched).risk_score = existing.risk_score ∧
      (mergeEnriched existing enriched).risk_level = existing.risk_level) ∧
    (existing.risk_score = none → enriched.risk_score ≠ none →
      (mergeEnriched existing enriched).risk_score = enriched.risk_score ∧
      (mergeEnriched existing enriched).risk_level = enriched.risk_level) ∧
    (existing.risk_score = none → enriched.risk_score = none →
      (mergeEnriched existing enriched).risk_score = none ∧
      (mergeEnriched existing enriched).risk_level = existing.risk_level) ∧
    (strTruthy existing.risk_score_explanation = true →
      (mergeEnriched existing enriched).risk_score_explanation =
        existing.risk_score_explanation) ∧
    (strTruthy existing.risk_score_explanation = false →
        strTruthy enriched.risk_score_explanation = true →
      (mergeEnriched existing enriched).risk_score_explanation =
        enriched.risk_score_explanation) ∧
    (existing.license_risk_score ≠ none →
      (mergeEnriched existing enriched).license_risk_score =
        existing.license_risk_score) ∧
    (existing.license_risk_score = none →
      (mergeEnriched existing enriched).license_risk_score =
        enriched.license_risk_score) ∧
    (existing.security_risk_score ≠ none →
      (mergeEnriched existing enriched).security_risk_score =
        existing.security_risk_score) ∧
    (existing.security_risk_score = none →
      (mergeEnriched existing enriched).security_risk_score =
        enriched.security_risk_score) ∧
    (existing.maintenance_risk_score ≠ none →
      (mergeEnriched existing enriched).maintenance_risk_score =
        existing.maintenance_risk_score) ∧
    (existing.maintenance_risk_score = none →
      (mergeEnriched existing enriched).maintenance_risk_score =
        enriched.maintenance_risk_score) ∧
    (existing.usage_context_risk_score ≠ none →
      (mergeEnriched existing enriched).usage_context_risk_score =
        existing.usage_context_risk_score) ∧
    (existing.usage_context_risk_score = none →
      (mergeEnriched existing enriched).usage_context_risk_score =
        enriched.usage_context_risk_score) := by
  intro ex new
  refine ⟨?_, ?_, ?_, ?_, ?_, ?_, ?_, ?_, ?_, ?_, ?_, ?_, ?_⟩ <;>
    intros <;> simp_all [mergeEnriched]

/-- Witness for the amended claim C4: the theorem applied at concrete
records — an already-set `risk_score` of 50 survives a merge with a record
carrying 90, and its `risk_level` survives with it. -/
theorem claim_C4_amended_witness :
    (mergeEnriched
      { name := "lodash", version := some "4.17.21", ecosystem := "npm",
        risk_score := some 50, risk_level := some "unknown",
        risk_score_explanation := none, license_risk_score := none,
        security_risk_score := none, maintenance_risk_score := none,
        usage_context_risk_score := none, sources := ["a/package.json"],
        library_id := none, repository_url := none }
      { name := "lodash", version := some "4.17.21", ecosystem := "npm",
        risk_score := some 90, risk_level := some "high",
        risk_score_explanation := none, license_risk_score := none,
        security_risk_score := none, maintenance_risk_score := none,
        usage_context_risk_score := none, sources := ["b/package.json"],
        library_id := none, repository_url := none }).risk_score = some 50 ∧
    (mergeEnriched
      { name := "lodash", version := some "4.17.21", ecosystem := "npm",
        risk_score := some 50, risk_level := some "unknown",
        risk_score_explanation := none, license_risk_score := none,
        security_risk_score := none, maintenance_risk_score := none,
        usage_context_risk_score := none, sources := ["a/package.json"],
        library_id := none, repository_url := none }
      { name := "lodash", version := some "4.17.21", ecosystem := "npm",
        risk_score := some 90, risk_level := some "high",
        risk_score_explanation := none, license_risk_score := none,
        security_risk_score := none, maintenance_risk_score := none,
        usage_context_risk_score := none, sources := ["b/package.json"],
        library_id := none, repository_url := none }).risk_level = some "unknown" :=
  (claim_C4_amended _ _).1 (by decide)

/-! ### Claim C9 -/

/-- Claim C9: when the cache search returns no results and no discovery
report with matches, `resolve_dependency_entry` still returns an enriched
entry for a named dependency carrying no risk fields of its own: all risk
fields null, `library_id` and `repository_url` null, and `sources` equal to
the single source manifest path. -/
theorem claim_C9 : ∀ (dep : DepDict) (relpath : String) (report : ReportCtx)
    (search_res : SearchResponse)
    (create_lib : LibraryCreate → Except Unit LibraryDoc) (n : String),
    dep.name = some n → n ≠ "" →
    dep.risk_score = none → dep.risk_level = none →
    dep.risk_score_explanation = none →
    dep.license_risk_score = none → dep.security_risk_score = none →
    dep.maintenance_risk_score = none → dep.usage_context_risk_score = none →
    search_res.results = [] →
    (∀ d, search_res.discovery = some d → d.found_matches = []) →
    resolve_dependency_entry dep relpath report search_res create_lib =
      .full { name := n, version := dep.version,
              ecosystem := resolveEcosystem dep report,
              risk_score := none, risk_level := none,
              risk_score_explanation := none,
              license_risk_score := none, security_risk_score := none,
              maintenance_risk_score := none, usage_context_risk_score := none,
              sources := [relpath], library_id := none,
              repository_url := none } := by
  intro dep relpath report search_res create_lib n hn hne hrs hrl hre hl hs hm hu
    hres hdisc
  have hname : strTruthy dep.name = true := by
    rw [hn]; simpa [strTruthy] using hne
  rw [resolve_dependency_entry]
  rw [if_neg (by simp [hname])]
  rw [hres]
  cases hd : search_res.discovery with
  | none => simp [hn, hrs, hrl, hre, hl, hs, hm, hu]
  | some d =>
    have hm2 := hdisc d hd
    simp [hn, hrs, hrl, hre, hl, hs, hm, hu, hm2]

/-- Witness for claim C9: a concrete unresolved dependency. -/
theorem claim_C9_witness :
    resolve_dependency_entry
      { name := some "requests", version := some "2.31.0" }
      "requirements.txt" {} { source := "local" } (fun _ => .error ()) =
    .full { name := "requests", version := some "2.31.0",
            ecosystem := "unknown", risk_score := none, risk_level := none,
            risk_score_explanation := none, license_risk_score := none,
            security_risk_score := none, maintenance_risk_score := none,
            usage_context_risk_score := none,
            sources := ["requirements.txt"], library_id := none,
            repository_url := none } :=
  claim_C9 { name := some "requests", version := some "2.31.0" }
    "requirements.txt" {} { source := "local" } (fun _ => .error ())
    "requests" rfl (by decide) rfl rfl rfl rfl rfl rfl rfl rfl
    (fun d hd => by cases hd)

/-! ### Claims C6 and C7 -/

theorem ensure_init_fail (st : MCP.ClientState) (v : JValue)
    (rest : List MCP.Outcome) (hinit : st.initialized = false)
    (hpv : hasProtocolVersion v = false) :
    ∃ m, MCP.ensure_initialized st (MCP.Outcome.reply v :: rest) =
      ⟨Except.error m, st, rest, [⟨"initialize", none⟩]⟩ := by
  cases v with
  | jobj fields =>
    have hnone : jFieldsGetOpt fields "protocolVersion" = none := by
      rw [hasProtocolVersion] at hpv
      cases h : jFieldsGetOpt fields "protocolVersion"
      · rfl
      · rw [h] at hpv; cases hpv
    exact ⟨"MCP server did not provide protocolVersion",
      by simp [MCP.ensure_initialized, MCP.takeOutcome, hinit, hnone]⟩
  | jnull => exact ⟨"Invalid initialize response from MCP server",
      by simp [MCP.ensure_initialized, MCP.takeOutcome, hinit]⟩
  | jbool b => exact ⟨"Invalid initialize response from MCP server",
      by simp [MCP.ensure_initialized, MCP.takeOutcome, hinit]⟩
  | jnum n => exact ⟨"Invalid initialize response from MCP server",
      by simp [MCP.ensure_initialized, MCP.takeOutcome, hinit]⟩
  | jstr s => exact ⟨"Invalid initialize response from MCP server",
      by simp [MCP.ensure_initialized, MCP.takeOutcome, hinit]⟩
  | jarr xs => exact ⟨"Invalid initialize response from MCP server",
      by simp [MCP.ensure_initialized, MCP.takeOutcome, hinit]⟩

/-- Claim C6: when the initialize response carries no accepted protocol
version, the client raises an `MCPClientError`, the session is not marked
initialized (the state is unchanged), and no `tools_call` request is sent —
`discover_library` stops after the one `initialize` request. -/
theorem claim_C6 : ∀ (st : MCP.ClientState) (v : JValue) (rest : List MCP.Outcome),
    st.initialized = false →
    hasProtocolVersion v = false →
    (∃ m, (MCP.discover_library st (MCP.Outcome.reply v :: rest)).result =
      Except.error m) ∧
    (MCP.discover_library st (MCP.Outcome.reply v :: rest)).state = st ∧
    (MCP.discover_library st (MCP.Outcome.reply v :: rest)).state.initialized = false ∧
    (MCP.discover_library st (MCP.Outcome.reply v :: rest)).sent =
      [⟨"initialize", none⟩] ∧
    ∀ s ∈ (MCP.discover_library st (MCP.Outcome.reply v :: rest)).sent,
      s.method ≠ "tools_call" := by
  intro st v rest hinit hpv
  obtain ⟨m, hm⟩ := ensure_init_fail st v rest hinit hpv
  have hd : MCP.discover_library st (MCP.Outcome.reply v :: rest) =
      ⟨Except.error m, st, rest, [⟨"initialize", none⟩]⟩ := by
    rw [MCP.discover_library, hm]
  rw [hd]
  refine ⟨⟨m, rfl⟩, rfl, hinit, rfl, ?_⟩
  intro s hs
  have hs2 : s = ⟨"initialize", none⟩ := by simpa using hs
  rw [hs2]
  decide

/-- Witness for claim C6: a concrete handshake response that omits
`protocolVersion`. -/
theorem claim_C6_witness :
    (∃ m, (MCP.discover_library ⟨none, none, false⟩
      [MCP.Outcome.reply (.jobj [("capabilities", .jobj [])])]).result =
      Except.error m) ∧
    (MCP.discover_library ⟨none, none, false⟩
      [MCP.Outcome.reply (.jobj [("capabilities", .jobj [])])]).state =
      ⟨none, none, false⟩ ∧
    (MCP.discover_library ⟨none, none, false⟩
      [MCP.Outcome.reply (.jobj [("capabilities", .jobj [])])]).state.initialized =
      false ∧
    (MCP.discover_library ⟨none, none, false⟩
      [MCP.Outcome.reply (.jobj [("capabilities", .jobj [])])]).sent =
      [⟨"initialize", none⟩] ∧
    ∀ s ∈ (MCP.discover_library ⟨none, none, false⟩
      [MCP.Outcome.reply (.jobj [("capabilities", .jobj [])])]).sent,
      s.method ≠ "tools_call" :=
  claim_C6 ⟨none, none, false⟩ (.jobj [("capabilities", .jobj [])]) [] rfl rfl

/-- Claim C7: a tool call failing with a `Server not initialized` message
makes the client reset its session state (initialized flag, session id,
protocol version), re-run the handshake once, and retry the call exactly
once — a second failure propagates with no third call; any other tool-call
error propagates with no retry.  Stated for both `discover_library` and the
client's `analyze_file`, each over an oracle delivering the failing call,
a fresh handshake, and the failing retry. -/
theorem claim_C7 :
    (∀ (st : MCP.ClientState) (m1 : String) (f : List (String × JValue))
        (pv : JValue) (ack : JValue) (m2 : String) (rest : List MCP.Outcome),
      st.initialized = true →
      substrS "Server not initialized" m1 = true →
      jFieldsGetOpt f "protocolVersion" = some pv →
      (MCP.discover_library st (MCP.Outcome.fail m1 :: MCP.Outcome.reply (.jobj f)
          :: MCP.Outcome.reply ack :: MCP.Outcome.fail m2 :: rest)) =
        ⟨Except.error m2, ⟨none, some pv, true⟩, rest,
          [⟨"tools_call", some "discover-library-info"⟩, ⟨"initialize", none⟩,
           ⟨"notifications/initialized", none⟩,
           ⟨"tools_call", some "discover-library-info"⟩]⟩) ∧
    (∀ (st : MCP.ClientState) (m1 : String) (rest : List MCP.Outcome),
      st.initialized = true →
      substrS "Server not initialized" m1 = false →
      (MCP.discover_library st (MCP.Outcome.fail m1 :: rest)) =
        ⟨Except.error m1, st, rest, [⟨"tools_call", some "discover-library-info"⟩]⟩) ∧
    (∀ (st : MCP.ClientState) (m1 : String) (f : List (String × JValue))
        (pv : JValue) (ack : JValue) (m2 : String) (rest : List MCP.Outcome),
      st.initialized = true →
      substrS "Server not initialized" m1 = true →
      jFieldsGetOpt f "protocolVersion" = some pv →
      (MCP.analyze_file st (MCP.Outcome.fail m1 :: MCP.Outcome.reply (.jobj f)
          :: MCP.Outcome.reply ack :: MCP.Outcome.fail m2 :: rest)) =
        ⟨Except.error m2, ⟨none, some pv, true⟩, rest,
          [⟨"tools_call", some "analyze-file"⟩, ⟨"initialize", none⟩,
           ⟨"notifications/initialized", none⟩,
           ⟨"tools_call", some "analyze-file"⟩]⟩) ∧
    (∀ (st : MCP.ClientState) (m1 : String) (rest : List MCP.Outcome),
      st.initialized = true →
      substrS "Server not initialized" m1 = false →
      (MCP.analyze_file st (MCP.Outcome.fail m1 :: rest)) =
        ⟨Except.error m1, st, rest, [⟨"tools_call", some "analyze-file"⟩]⟩) := by
  refine ⟨?_, ?_, ?_, ?_⟩
  · intro st m1 f pv ack m2 rest hinit hsub hf
    simp [MCP.discover_library, MCP.ensure_initialized, MCP.takeOutcome,
      MCP.resetState, hinit, hsub, hf]
  · intro st m1 rest hinit hsub
    simp [MCP.discover_library, MCP.ensure_initialized, MCP.takeOutcome,
      hinit, hsub]
  · intro st m1 f pv ack m2 rest hinit hsub hf
    simp [MCP.analyze_file, MCP.ensure_initialized, MCP.takeOutcome,
      MCP.resetState, hinit, hsub, hf]
  · intro st m1 rest hinit hsub
    simp [MCP.analyze_file, MCP.ensure_initialized, MCP.takeOutcome,
      hinit, hsub]

/-- Witness for claim C7: a concrete not-initialized failure followed by a
successful re-handshake and a failing retry, and a concrete unrelated error
with no retry. -/
theorem claim_C7_witness :
    (MCP.discover_library ⟨some "sid", some (.jstr "2025-06-18"), true⟩
      [MCP.Outcome.fail "Bad Request: Server not initialized",
       MCP.Outcome.reply (.jobj [("protocolVersion", .jstr "2025-06-18")]),
       MCP.Outcome.reply .jnull,
       MCP.Outcome.fail "tool exploded"]) =
      ⟨Except.error "tool exploded", ⟨none, some (.jstr "2025-06-18"), true⟩, [],
        [⟨"tools_call", some "discover-library-info"⟩, ⟨"initialize", none⟩,
         ⟨"notifications/initialized", none⟩,
         ⟨"tools_call", some "discover-library-info"⟩]⟩ ∧
    (MCP.discover_library ⟨some "sid", some (.jstr "2025-06-18"), true⟩
      [MCP.Outcome.fail "some other failure"]) =
      ⟨Except.error "some other failure", ⟨some "sid", some (.jstr "2025-06-18"), true⟩,
        [], [⟨"tools_call", some "discover-library-info"⟩]⟩ :=
  ⟨claim_C7.1 ⟨some "sid", some (.jstr "2025-06-18"), true⟩
      "Bad Request: Server not initialized"
      [("protocolVersion", .jstr "2025-06-18")] (.jstr "2025-06-18") .jnull
      "tool exploded" [] rfl (by decide) rfl,
   claim_C7.2.1 ⟨some "sid", some (.jstr "2025-06-18"), true⟩
      "some other failure" [] rfl (by decide)⟩

/-! ### Claim C8 -/

theorem substrL_cons_star (s z : List Char) (hstar : '*' ∉ s) (hs : s ≠ []) :
    substrL s ('*' :: z) = substrL s z := by
  have hp : prefB s ('*' :: z) = false := by
    cases s with
    | nil => exact absurd rfl hs
    | cons c s' =>
      rw [prefB]
      have hc : (c == '*') = false := by
        have hne : c ≠ '*' := fun h => hstar (h ▸ List.mem_cons_self c s')
        simp [hne]
      rw [hc]
      rfl
  rw [substrL, hp]
  rfl

theorem prefB_through_star : ∀ (s w z : List Char), '*' ∉ s →
    prefB s (w ++ '*' :: z) = true → prefB s w = true := by
  intro s
  induction s with
  | nil => intro w z _ _; rfl
  | cons c s' ih =>
    intro w z hstar h
    cases w with
    | nil =>
      rw [List.nil_append, prefB] at h
      simp only [Bool.and_eq_true] at h
      have hc : c = '*' := beq_iff_eq.mp h.1
      exact absurd (by rw [← hc]; exact List.mem_cons_self c s') hstar
    | cons d w' =>
      rw [List.cons_append, prefB] at h
      simp only [Bool.and_eq_true] at h
      rw [prefB]
      have h2 := ih w' z (fun hm => hstar (List.mem_cons_of_mem c hm)) h.2
      rw [h.1, h2]
      rfl

theorem substrL_through_star : ∀ (w s z : List Char), '*' ∉ s → s ≠ [] →
    substrL s (w ++ '*' :: z) = true → substrL s w = true ∨ substrL s z = true := by
  intro w
  induction w with
  | nil =>
    intro s z hstar hs h
    rw [List.nil_append, substrL_cons_star s z hstar hs] at h
    exact Or.inr h
  | cons c w' ih =>
    intro s z hstar hs h
    rw [List.cons_append, substrL] at h
    simp only [Bool.or_eq_true] at h
    rcases h with h | h
    · have h2 : prefB s (c :: w') = true := by
        apply prefB_through_star s (c :: w') z hstar
        rw [List.cons_append]
        exact h
      left
      rw [substrL, h2]
      rfl
    · rcases ih s z hstar hs h with h2 | h2
      · left
        rw [substrL, h2]
        simp
      · exact Or.inr h2

theorem prefB_pyReplaceGo (s : List Char) :
    ∀ (fuel : Nat) (t p : List Char), t.length ≤ fuel → '*' ∉ p →
      prefB p (pyReplaceGo fuel t s redactionMarker.data) = true →
      prefB p t = true := by
  intro fuel
  induction fuel with
  | zero =>
    intro t p ht hp h
    have ht0 : t = [] := List.length_eq_zero.mp (Nat.le_zero.mp ht)
    subst ht0
    rw [pyReplaceGo] at h
    cases p with
    | nil => rfl
    | cons a p' => cases h
  | succ n ih =>
    intro t p ht hp h
    cases t with
    | nil =>
      rw [pyReplaceGo] at h
      cases p with
      | nil => rfl
      | cons a p' => cases h
    | cons c t' =>
      rw [pyReplaceGo] at h
      by_cases hpre : (s ≠ [] ∧ prefB s (c :: t') = true)
      · rw [if_pos hpre] at h
        cases p with
        | nil => rfl
        | cons a p' =>
          have hsh : redactionMarker.data ++
              pyReplaceGo n ((c :: t').drop s.length) s redactionMarker.data =
              '*' :: ('*' :: '*' :: ("redacted".data ++
                ('*' :: '*' :: '*' ::
                  pyReplaceGo n ((c :: t').drop s.length) s redactionMarker.data))) := rfl
          rw [hsh, prefB] at h
          simp only [Bool.and_eq_true] at h
          have hc : a = '*' := beq_iff_eq.mp h.1
          exact absurd (by rw [← hc]; exact List.mem_cons_self a p') hp
      · rw [if_neg hpre] at h
        cases p with
        | nil => rfl
        | cons a p' =>
          rw [prefB] at h ⊢
          simp only [Bool.and_eq_true] at h
          have hbound : t'.length ≤ n := by
            simp only [List.length_cons] at ht
            omega
          have h2 := ih t' p' hbound (fun hm => hp (List.mem_cons_of_mem a hm)) h.2
          rw [h.1, h2]
          rfl

theorem pyReplaceGo_no_sub (s : List Char) (hs : s ≠ []) (hstar : '*' ∉ s)
    (hred : substrL s "redacted".data = false) :
    ∀ (fuel : Nat) (t : List Char), t.length ≤ fuel →
      substrL s (pyReplaceGo fuel t s redactionMarker.data) = false := by
  intro fuel
  induction fuel with
  | zero =>
    intro t ht
    have ht0 : t = [] := List.length_eq_zero.mp (Nat.le_zero.mp ht)
    subst ht0
    rw [pyReplaceGo]
    cases s with
    | nil => exact absurd rfl hs
    | cons c s' => rfl
  | succ n ih =>
    intro t ht
    cases t with
    | nil =>
      rw [pyReplaceGo]
      cases s with
      | nil => exact absurd rfl hs
      | cons c s' => rfl
    | cons c t' =>
      rw [pyReplaceGo]
      by_cases hpre : (s ≠ [] ∧ prefB s (c :: t') = true)
      · rw [if_pos hpre]
        have hs1 : 1 ≤ s.length := by
          cases s with
          | nil => exact absurd rfl hs
          | cons a s' => simp
        have hbound : ((c :: t').drop s.length).length ≤ n := by
          simp only [List.length_drop, List.length_cons]
          simp only [List.length_cons] at ht
          omega
        have hX := ih ((c :: t').drop s.length) hbound
        cases hval : substrL s (redactionMarker.data ++
            pyReplaceGo n ((c :: t').drop s.length) s redactionMarker.data)
        · rfl
        · exfalso
          have hsh : redactionMarker.data ++
              pyReplaceGo n ((c :: t').drop s.length) s redactionMarker.data =
              '*' :: ('*' :: '*' :: ("redacted".data ++
                ('*' :: ('*' :: '*' ::
                  pyReplaceGo n ((c :: t').drop s.length) s redactionMarker.data)))) := rfl
          rw [hsh, substrL_cons_star _ _ hstar hs, substrL_cons_star _ _ hstar hs,
            substrL_cons_star _ _ hstar hs] at hval
          rcases substrL_through_star "redacted".data s _ hstar hs hval with h | h
          · rw [hred] at h; cases h
          · rw [substrL_cons_star _ _ hstar hs, substrL_cons_star _ _ hstar hs,
              hX] at h
            cases h
      · rw [if_neg hpre]
        have hbound : t'.length ≤ n := by
          simp only [List.length_cons] at ht
          omega
        have hY := ih t' hbound
        rw [substrL]
        have hp : prefB s (c :: pyReplaceGo n t' s redactionMarker.data) = false := by
          cases hb : prefB s (c :: pyReplaceGo n t' s redactionMarker.data)
          · rfl
          · exfalso
            cases s with
            | nil => exact hs rfl
            | cons a s' =>
              rw [prefB] at hb
              simp only [Bool.and_eq_true] at hb
              have hps' : prefB s' t' = true :=
                prefB_pyReplaceGo (a :: s') n t' s' hbound
                  (fun hm => hstar (List.mem_cons_of_mem a hm)) hb.2
              have hpc : prefB (a :: s') (c :: t') = true := by
                rw [prefB, hb.1, hps']
                rfl
              exact hpre ⟨hs, hpc⟩
        rw [hp, hY]
        rfl

/-- Counterexample to claim C8: the claim quantifies over every injected
secret, but the redaction is a plain text replacement with the marker
`***redacted***`, so a secret colliding with the marker text — here the
secret is the string `redacted` itself — still occurs in the raised clone
error message after redaction. -/
theorem claim_C8_cex :
    substrS "redacted"
      (clone_error_message "auth for redacted failed" "redacted" true) = true := by
  decide

/-- Claim C8 as amended: the clone failure path replaces every occurrence of
the injected secret in the captured stderr with `***redacted***` before the
error is raised, and for every secret that is non-empty, contains no `*`,
and is not a substring of the word `redacted`, the redacted stderr embedded
in the message contains no occurrence of the secret.  (A secret colliding
with the marker or the fixed message text, such as `redacted` itself, can
still appear.) -/
theorem claim_C8_amended : ∀ (stderrRaw secret : List Char),
    secret ≠ [] → '*' ∉ secret →
    substrL secret "redacted".data = false →
    substrL secret (pyReplace stderrRaw secret redactionMarker.data) = false := by
  intro stderrRaw secret hs hstar hred
  exact pyReplaceGo_no_sub secret hs hstar hred stderrRaw.length stderrRaw
    (Nat.le_refl _)

/-- Witness for the amended claim C8: a concrete token is fully scrubbed
from a concrete stderr. -/
theorem claim_C8_amended_witness :
    substrL "hunter2".data
      (pyReplace "fatal: Authentication failed for token hunter2".data
        "hunter2".data redactionMarker.data) = false :=
  claim_C8_amended "fatal: Authentication failed for token hunter2".data
    "hunter2".data (by decide) (by decide) (by decide)

end LicenGuard
